import Mathlib

/-!
Verification development for the tinyterm terminal emulator.

The repository's own C source (`src/tinyterm.c`) is thin GTK glue: key
dispatch, child spawn, signal handling, exit propagation.  The hard core
(the terminal screen state machine) lives in the external VTE widget and
is specified, not implemented, in the repository's spec.  Accordingly:

* `TinyTerm.Glue` embeds the actual C functions (`key_press_cb`,
  `signal_handler`, `vte_spawn`'s pid recording, `vte_exit_cb` and the
  `keep` option wiring of `main`).
* `TinyTerm.Core` is modelled from the spec: the Parser/State Machine,
  Cell Buffer, Cursor & Mode state, ScrollbackStore and Search engine
  described in the spec's component design.
-/

namespace TinyTerm

namespace Core

/-- Modelled from the spec: a Cell — one grid position holding a displayed
character together with the attribute set it was written with (the spec's
fg/bg colour indices and attribute bitset are folded into one attribute
payload, unused by the claims). -/
structure Cell where
  ch : Nat
  attr : Nat
  deriving Repr, DecidableEq

/-- Modelled from the spec: a Row — an ordered sequence of Cells plus the
"wrapped" flag recording that the row continues onto the next due to
autowrap. -/
structure Row where
  cells : List Cell
  wrapped : Bool
  deriving Repr, DecidableEq

/-- Modelled from the spec: the ScrollbackStore — an ordered sequence of
evicted Rows bounded by a configured maximum count, oldest first. -/
structure ScrollbackStore where
  rows : List Row
  maxRows : Nat
  deriving Repr, DecidableEq

/-- Modelled from the spec: `push(row)` appends; if count exceeds the
configured maximum the oldest row is dropped (FIFO); a maximum of 0 means
scrollback is disabled and push is a no-op that drops immediately. -/
def ScrollbackStore.push (sb : ScrollbackStore) (row : Row) : ScrollbackStore :=
  if sb.maxRows = 0 then sb
  else if sb.rows.length < sb.maxRows then { sb with rows := sb.rows ++ [row] }
  else { sb with rows := sb.rows.drop (sb.rows.length + 1 - sb.maxRows) ++ [row] }

/-- Modelled from the spec: `query(range)`/`scrollback_row(index)` returns
rows by index, index 0 the oldest retained row; an index beyond retained
history yields the explicit unavailable result `none`, not an error. -/
def ScrollbackStore.query (sb : ScrollbackStore) (idx : Nat) : Option Row :=
  sb.rows[idx]?

/-- Modelled from the spec: the Parser/State Machine's states — `Ground`,
`Escape`, `CSI-Entry`/`CSI-Param`/`CSI-Intermediate` (collecting
numeric/semicolon parameters, with the private-mode marker, until a final
byte), `OSC-String` and `DCS-String` (collected until a string terminator,
BEL or ESC-backslash, the latter via an extra sub-state remembering the
pending ESC). -/
inductive PState where
  | ground
  | escape
  | csiEntry
  | csiParam (priv : Bool) (acc : List Nat) (cur : Nat)
  | csiIntermediate (priv : Bool) (acc : List Nat)
  | oscString (acc : List Nat)
  | oscEscape (acc : List Nat)
  | dcsString
  | dcsEscape
  deriving Repr, DecidableEq

/-- Modelled from the spec: the whole terminal core state — Grid (owned by
the Cell Buffer), Cursor & Mode State (position, visibility, saved-cursor
stack, current attribute set, autowrap mode, scrolling region),
ScrollbackStore, window title (set via OSC), and the parser state carried
across `feed` calls. -/
structure Term where
  rows : Nat
  cols : Nat
  grid : List Row
  curRow : Nat
  curCol : Nat
  curAttr : Nat
  autowrap : Bool
  cursorVisible : Bool
  regTop : Nat
  regBottom : Nat
  savedCursors : List (Nat × Nat)
  sb : ScrollbackStore
  title : List Nat
  pstate : PState
  deriving Repr, DecidableEq

/-- A blank cell carrying the given attribute payload (spec: newly exposed
cells are blank with the current background attribute). -/
def blankCell (attr : Nat) : Cell := { ch := 32, attr := attr }

/-- A blank row of `cols` blank cells, not wrapped. -/
def blankRow (cols attr : Nat) : Row :=
  { cells := List.replicate cols (blankCell attr), wrapped := false }

/-- Update the element at index `i` in place, identity when out of range. -/
def listUpd {α : Type} : List α → Nat → (α → α) → List α
  | [], _, _ => []
  | a :: l, 0, f => f a :: l
  | a :: l, n + 1, f => a :: listUpd l n f

/-- Modelled from the spec: terminal construction with the configuration
surface the core consumes — initial grid dimensions, scrollback maximum and
the autowrap default (a requested size outside the valid range is clamped,
never a failure). -/
def initTerm (rows cols sbMax : Nat) (autowrapDefault : Bool) : Term :=
  let r := max 1 rows
  let c := max 1 cols
  { rows := r, cols := c
    grid := List.replicate r (blankRow c 0)
    curRow := 0, curCol := 0, curAttr := 0
    autowrap := autowrapDefault, cursorVisible := true
    regTop := 0, regBottom := r - 1
    savedCursors := []
    sb := { rows := [], maxRows := sbMax }
    title := []
    pstate := PState.ground }

/-- Move the cursor to `(r, c)` clamped to `[0, rows) × [0, cols)` (spec:
every coordinate computed during dispatch is clamped before use). -/
def setCursor (st : Term) (r c : Nat) : Term :=
  { st with curRow := min r (st.rows - 1), curCol := min c (st.cols - 1) }

/-- Write `cell` at grid position `(r, c)`, both coordinates clamped. -/
def writeCellAt (st : Term) (r c : Nat) (cell : Cell) : Term :=
  let f : Row → Row :=
    fun row => { row with cells := listUpd row.cells (min c (st.cols - 1)) (fun _ => cell) }
  { st with grid := listUpd st.grid (min r (st.rows - 1)) f }

/-- Whether the scrolling region currently covers the full grid. -/
def fullRegion (st : Term) : Bool :=
  st.regTop == 0 && st.regBottom == st.rows - 1

/-- The grid after scrolling the region up by one row: rows
`regTop+1 .. regBottom` shift up and a blank row (current attribute) fills
`regBottom`. -/
def scrolledGrid (st : Term) : List Row :=
  st.grid.take st.regTop ++
    (((st.grid.drop st.regTop).take (st.regBottom + 1 - st.regTop)).drop 1 ++
      [blankRow st.cols st.curAttr]) ++
    st.grid.drop (st.regBottom + 1)

/-- The scrollback after scrolling the region up by one row: the row leaving
the top of the grid is appended only when the region is the full grid. -/
def scrolledSb (st : Term) : ScrollbackStore :=
  if fullRegion st then
    match st.grid.head? with
    | some r => st.sb.push r
    | none => st.sb
  else st.sb

/-- Modelled from the spec: scroll the scrolling region up by one row — rows
`regTop+1 .. regBottom` shift up, a blank row (current attribute) fills
`regBottom`, and the row leaving the top is appended to the ScrollbackStore
only when the region is the full grid. -/
def scrollRegionUp (st : Term) : Term :=
  { st with grid := scrolledGrid st, sb := scrolledSb st }

/-- Modelled from the spec: line feed — if the cursor is at the bottom of
the scrolling region, scroll the region up by one row (evicting into
scrollback only when the region is the full grid); otherwise move the
cursor down one row, clamped at the grid bottom. -/
def lineFeed (st : Term) : Term :=
  if st.curRow = st.regBottom then scrollRegionUp st
  else if st.curRow + 1 < st.rows then { st with curRow := st.curRow + 1 }
  else st

/-- Modelled from the spec: printable byte in Ground state — write to the
cell at the cursor with the current attribute set and advance the cursor
column; on reaching the last column either wrap to the next row (setting
the wrapped flag, scrolling if needed) if autowrap is enabled, or overwrite
the last cell repeatedly if disabled. -/
def printChar (st : Term) (b : Nat) : Term :=
  let st1 := writeCellAt st st.curRow st.curCol { ch := b, attr := st.curAttr }
  if st.curCol + 1 < st.cols then { st1 with curCol := st.curCol + 1 }
  else if st.autowrap then
    let st2 := { st1 with
      grid := listUpd st1.grid (min st.curRow (st.rows - 1)) (fun r => { r with wrapped := true }) }
    { lineFeed st2 with curCol := 0 }
  else st1

/-- Map a function of the element index over a list, indices starting
at `i`. -/
def mapIdxFrom {α : Type} (f : Nat → α → α) : Nat → List α → List α
  | _, [] => []
  | i, a :: l => f i a :: mapIdxFrom f (i + 1) l

/-- Blank the cells of a row between positions `a` and `b` inclusive. -/
def blankRange (attr a b : Nat) (cells : List Cell) : List Cell :=
  mapIdxFrom (fun i c => if a ≤ i ∧ i ≤ b then blankCell attr else c) 0 cells

/-- The cell rewriting performed by erase-in-line for each sub-mode. -/
def elFn (st : Term) (mode : Nat) : List Cell → List Cell :=
  if mode = 0 then blankRange st.curAttr st.curCol (st.cols - 1)
  else if mode = 1 then blankRange st.curAttr 0 st.curCol
  else if mode = 2 then blankRange st.curAttr 0 (st.cols - 1)
  else id

/-- Modelled from the spec: erase-in-line, sub-modes 0 (cursor to end),
1 (start to cursor), 2 (entire line). -/
def eraseInLine (st : Term) (mode : Nat) : Term :=
  { st with grid := listUpd st.grid st.curRow (fun r => { r with cells := elFn st mode r.cells }) }

/-- Modelled from the spec: erase-in-display, sub-modes 0 (cursor to end of
display), 1 (start of display to cursor), 2 (entire display). -/
def eraseInDisplay (st : Term) (mode : Nat) : Term :=
  if mode = 0 then
    { eraseInLine st 0 with grid := mapIdxFrom (fun i r => if st.curRow < i then blankRow st.cols st.curAttr else r) 0 (eraseInLine st 0).grid }
  else if mode = 1 then
    { eraseInLine st 1 with grid := mapIdxFrom (fun i r => if i < st.curRow then blankRow st.cols st.curAttr else r) 0 (eraseInLine st 1).grid }
  else if mode = 2 then
    { st with grid := st.grid.map (fun _ => blankRow st.cols st.curAttr) }
  else st

/-- Truncate or blank-pad a cell list to exactly `c` cells, so a shift
within a row can never change the row's width. -/
def padCells (c attr : Nat) (cells : List Cell) : List Cell :=
  cells.take c ++ List.replicate (c - cells.length) (blankCell attr)

/-- Truncate or blank-pad a row list to exactly `cnt` rows, so a shift
within the scrolling region can never change the region's height. -/
def padRows (cnt cols attr : Nat) (rows : List Row) : List Row :=
  rows.take cnt ++ List.replicate (cnt - rows.length) (blankRow cols attr)

/-- Modelled from the spec: insert characters (ICH, CSI @) — insert `n`
blank cells at the cursor, shifting the rest of the row right; cells
shifted past the last column are dropped, so the shift stays within the
row. -/
def insertCells (st : Term) (n : Nat) : Term :=
  { st with grid := listUpd st.grid st.curRow (fun r => { r with cells := padCells st.cols st.curAttr (r.cells.take st.curCol ++ List.replicate n (blankCell st.curAttr) ++ r.cells.drop st.curCol) }) }

/-- Modelled from the spec: delete characters (DCH, CSI P) — delete `n`
cells at the cursor, shifting the rest of the row left and blank-filling at
the line end, so the shift stays within the row. -/
def deleteCells (st : Term) (n : Nat) : Term :=
  { st with grid := listUpd st.grid st.curRow (fun r => { r with cells := padCells st.cols st.curAttr (r.cells.take st.curCol ++ r.cells.drop (st.curCol + n)) }) }

/-- Modelled from the spec: insert lines (IL, CSI L) — with the cursor
inside the scrolling region, insert `n` blank rows at the cursor row,
shifting the rows below down within the region; rows shifted past the
region bottom are dropped. Ignored when the cursor is outside the
region. -/
def insertLines (st : Term) (n : Nat) : Term :=
  if st.regTop ≤ st.curRow ∧ st.curRow ≤ st.regBottom then
    { st with grid := st.grid.take st.curRow ++ padRows (st.regBottom + 1 - st.curRow) st.cols st.curAttr (List.replicate n (blankRow st.cols st.curAttr) ++ (st.grid.drop st.curRow).take (st.regBottom + 1 - st.curRow)) ++ st.grid.drop (st.regBottom + 1) }
  else st

/-- Modelled from the spec: delete lines (DL, CSI M) — with the cursor
inside the scrolling region, delete `n` rows at the cursor row, shifting
the rows below up within the region and blank-filling at the region
bottom. Ignored when the cursor is outside the region. -/
def deleteLines (st : Term) (n : Nat) : Term :=
  if st.regTop ≤ st.curRow ∧ st.curRow ≤ st.regBottom then
    { st with grid := st.grid.take st.curRow ++ padRows (st.regBottom + 1 - st.curRow) st.cols st.curAttr (((st.grid.drop st.curRow).take (st.regBottom + 1 - st.curRow)).drop n) ++ st.grid.drop (st.regBottom + 1) }
  else st

/-- Bold bit of the attribute payload. -/
def attrBold (a : Nat) : Nat := a % 2

/-- Underline bit of the attribute payload. -/
def attrUnderline (a : Nat) : Nat := a / 2 % 2

/-- Inverse bit of the attribute payload. -/
def attrInverse (a : Nat) : Nat := a / 4 % 2

/-- Foreground colour slot of the attribute payload (0 = default,
1–16 = the 16 base palette indices). -/
def attrFg (a : Nat) : Nat := a / 8 % 256

/-- Background colour slot of the attribute payload (0 = default,
1–16 = the 16 base palette indices). -/
def attrBg (a : Nat) : Nat := a / 2048 % 256

/-- Pack attribute bits and colour slots into one attribute payload. -/
def mkAttr (bold underline inverse fg bg : Nat) : Nat :=
  bold % 2 + underline % 2 * 2 + inverse % 2 * 4 + fg % 256 * 8 + bg % 256 * 2048

/-- Modelled from the spec: set graphic rendition — parse the numeric
parameters sequentially, each either resetting all attributes (0), setting
or clearing one attribute (1/22 bold, 4/24 underline, 7/27 inverse), or
setting one colour slot (30–37/90–97 and 40–47/100–107 select the 16 base
palette indices, 39/49 restore the defaults); any other parameter is
ignored. -/
def applySgr (attr : Nat) (params : List Nat) : Nat :=
  params.foldl
    (fun a p =>
      if p = 0 then 0
      else if p = 1 then mkAttr 1 (attrUnderline a) (attrInverse a) (attrFg a) (attrBg a)
      else if p = 22 then mkAttr 0 (attrUnderline a) (attrInverse a) (attrFg a) (attrBg a)
      else if p = 4 then mkAttr (attrBold a) 1 (attrInverse a) (attrFg a) (attrBg a)
      else if p = 24 then mkAttr (attrBold a) 0 (attrInverse a) (attrFg a) (attrBg a)
      else if p = 7 then mkAttr (attrBold a) (attrUnderline a) 1 (attrFg a) (attrBg a)
      else if p = 27 then mkAttr (attrBold a) (attrUnderline a) 0 (attrFg a) (attrBg a)
      else if 30 ≤ p ∧ p ≤ 37 then mkAttr (attrBold a) (attrUnderline a) (attrInverse a) (p - 30 + 1) (attrBg a)
      else if 90 ≤ p ∧ p ≤ 97 then mkAttr (attrBold a) (attrUnderline a) (attrInverse a) (p - 90 + 9) (attrBg a)
      else if p = 39 then mkAttr (attrBold a) (attrUnderline a) (attrInverse a) 0 (attrBg a)
      else if 40 ≤ p ∧ p ≤ 47 then mkAttr (attrBold a) (attrUnderline a) (attrInverse a) (attrFg a) (p - 40 + 1)
      else if 100 ≤ p ∧ p ≤ 107 then mkAttr (attrBold a) (attrUnderline a) (attrInverse a) (attrFg a) (p - 100 + 9)
      else if p = 49 then mkAttr (attrBold a) (attrUnderline a) (attrInverse a) (attrFg a) 0
      else a)
    attr

/-- `i`-th numeric parameter, 0 when absent. -/
def getParam (params : List Nat) (i : Nat) : Nat := params.getD i 0

/-- `i`-th numeric parameter with 0/absent meaning the default 1. -/
def getParam1 (params : List Nat) (i : Nat) : Nat := max 1 (getParam params i)

/-- The CSI final bytes the dispatch table recognizes: cursor movement
(A B C D H f), erase (J K), insert/delete lines (L M), insert/delete
characters (@ P), SGR (m), scrolling region (r), set/reset mode (h l),
save/restore cursor (s u). -/
def recognizedCsiFinals : List Nat :=
  [65, 66, 67, 68, 72, 102, 74, 75, 76, 77, 64, 80, 109, 114, 104, 108, 115, 117]

/-- The requested scrolling-region bottom row: 0/absent means the last grid
row, otherwise the 1-based parameter clamped to the grid. -/
def regionBot (st : Term) (params : List Nat) : Nat :=
  if getParam params 1 = 0 then st.rows - 1 else min (getParam params 1 - 1) (st.rows - 1)

/-- DECSTBM: set the scrolling region from the parameters (clamped to the
grid; ignored unless it spans at least two rows), homing the cursor. -/
def setRegion (st : Term) (params : List Nat) : Term :=
  if min (getParam1 params 0 - 1) (st.rows - 1) < regionBot st params then
    { setCursor st 0 0 with
      regTop := min (getParam1 params 0 - 1) (st.rows - 1),
      regBottom := regionBot st params }
  else st

/-- Pop the saved-cursor stack and restore the cursor from it, clamped. -/
def restoreCursor (st : Term) : Term :=
  match st.savedCursors with
  | [] => st
  | (r, c) :: rest => { setCursor st r c with savedCursors := rest }

/-- Modelled from the spec: the CSI final-byte dispatch table — maps the
final byte and the collected parameters to an operation, every computed
coordinate clamped to the grid bounds; an unrecognized final byte
terminates the sequence with no effect. -/
def csiDispatch (st : Term) (priv : Bool) (params : List Nat) (final : Nat) : Term :=
  match final with
  | 65 => setCursor st (st.curRow - getParam1 params 0) st.curCol -- A: cursor up
  | 66 => setCursor st (st.curRow + getParam1 params 0) st.curCol -- B: cursor down
  | 67 => setCursor st st.curRow (st.curCol + getParam1 params 0) -- C: cursor forward
  | 68 => setCursor st st.curRow (st.curCol - getParam1 params 0) -- D: cursor back
  | 72 => setCursor st (getParam1 params 0 - 1) (getParam1 params 1 - 1) -- H: cursor position
  | 102 => setCursor st (getParam1 params 0 - 1) (getParam1 params 1 - 1) -- f: cursor position
  | 74 => eraseInDisplay st (getParam params 0) -- J: erase in display
  | 75 => eraseInLine st (getParam params 0) -- K: erase in line
  | 76 => insertLines st (getParam1 params 0) -- L: insert lines
  | 77 => deleteLines st (getParam1 params 0) -- M: delete lines
  | 64 => insertCells st (getParam1 params 0) -- @: insert blank characters
  | 80 => deleteCells st (getParam1 params 0) -- P: delete characters
  | 109 => { st with curAttr := applySgr st.curAttr params } -- m: set graphic rendition
  | 114 => setRegion st params -- r: set scrolling region, cursor home
  | 104 => -- h: set mode
    if priv ∧ 7 ∈ params then { st with autowrap := true }
    else if priv ∧ 25 ∈ params then { st with cursorVisible := true }
    else st
  | 108 => -- l: reset mode
    if priv ∧ 7 ∈ params then { st with autowrap := false }
    else if priv ∧ 25 ∈ params then { st with cursorVisible := false }
    else st
  | 115 => { st with savedCursors := (st.curRow, st.curCol) :: st.savedCursors } -- s: save cursor
  | 117 => restoreCursor st -- u: restore cursor
  | _ => st

/-- The numeric action-selecting code at the head of an OSC string. -/
def oscCode (acc : List Nat) : Nat :=
  (acc.takeWhile (fun b => 48 ≤ b ∧ b ≤ 57)).foldl (fun a d => a * 10 + (d - 48)) 0

/-- The rest of an OSC string after its numeric code. -/
def oscPayload (acc : List Nat) : List Nat :=
  acc.drop (acc.takeWhile (fun b => 48 ≤ b ∧ b ≤ 57)).length

/-- Modelled from the spec: OSC dispatch — the numeric code selects the
action; the window-title-set actions (0 and 2) update the title from the
payload after the semicolon; every other command is accepted and ignored. -/
def oscDispatch (st : Term) (acc : List Nat) : Term :=
  if (oscCode acc = 0 ∨ oscCode acc = 2) ∧ (oscPayload acc).head? = some 59 then
    { st with title := (oscPayload acc).drop 1 }
  else st

/-- Transition out of the `Escape` state on byte `b`: `[` introduces a CSI
sequence, `]` an OSC string, `P` a DCS string, ESC restarts, and any other
byte ends the (possibly unrecognized, then ignored) two-character sequence
back to Ground. -/
def escStep (st : Term) (b : Nat) : Term :=
  if b = 91 then { st with pstate := PState.csiEntry }
  else if b = 93 then { st with pstate := PState.oscString [] }
  else if b = 80 then { st with pstate := PState.dcsString }
  else if b = 27 then { st with pstate := PState.escape }
  else { st with pstate := PState.ground }

/-- Ground-state handling of one byte: C0 controls execute (LF/VT/FF, CR,
BS, HT, BEL and the rest ignored), ESC enters the Escape state, and every
other byte prints (bytes outside ASCII degrade to a replacement glyph via
the same printing path). -/
def groundStep (st : Term) (b : Nat) : Term :=
  if b = 27 then { st with pstate := PState.escape }
  else if b = 10 ∨ b = 11 ∨ b = 12 then lineFeed st
  else if b = 13 then { st with curCol := 0 }
  else if b = 8 then { st with curCol := st.curCol - 1 }
  else if b = 9 then setCursor st st.curRow (st.curCol / 8 * 8 + 8)
  else if b < 32 ∨ b = 127 then st
  else printChar st b

/-- Modelled from the spec: one byte of the Parser/State Machine.
Transitions are driven by byte classification (control, parameter,
intermediate, final, printable); unrecognized final bytes in CSI/OSC/DCS
sequences terminate the sequence and are ignored. -/
def pstep (st : Term) (b : Nat) : Term :=
  match st.pstate with
  | PState.ground => groundStep st b
  | PState.escape => escStep st b
  | PState.csiEntry =>
    if 48 ≤ b ∧ b ≤ 57 then { st with pstate := PState.csiParam false [] (b - 48) }
    else if b = 59 ∨ b = 58 then { st with pstate := PState.csiParam false [0] 0 }
    else if 60 ≤ b ∧ b ≤ 63 then { st with pstate := PState.csiParam (b = 63) [] 0 }
    else if 32 ≤ b ∧ b ≤ 47 then { st with pstate := PState.csiIntermediate false [] }
    else if 64 ≤ b ∧ b ≤ 126 then
      { csiDispatch st false [] b with pstate := PState.ground }
    else if b = 27 then { st with pstate := PState.escape }
    else st
  | PState.csiParam priv acc cur =>
    if 48 ≤ b ∧ b ≤ 57 then { st with pstate := PState.csiParam priv acc (cur * 10 + (b - 48)) }
    else if b = 59 ∨ b = 58 then { st with pstate := PState.csiParam priv (acc ++ [cur]) 0 }
    else if 60 ≤ b ∧ b ≤ 63 then { st with pstate := PState.csiParam (priv ∨ b = 63) acc cur }
    else if 32 ≤ b ∧ b ≤ 47 then { st with pstate := PState.csiIntermediate priv (acc ++ [cur]) }
    else if 64 ≤ b ∧ b ≤ 126 then
      { csiDispatch st priv (acc ++ [cur]) b with pstate := PState.ground }
    else if b = 27 then { st with pstate := PState.escape }
    else st
  | PState.csiIntermediate priv acc =>
    if 64 ≤ b ∧ b ≤ 126 then { st with pstate := PState.ground }
    else if b = 27 then { st with pstate := PState.escape }
    else { st with pstate := PState.csiIntermediate priv acc }
  | PState.oscString acc =>
    if b = 7 then { oscDispatch st acc with pstate := PState.ground }
    else if b = 27 then { st with pstate := PState.oscEscape acc }
    else { st with pstate := PState.oscString (acc ++ [b]) }
  | PState.oscEscape acc =>
    if b = 92 then { oscDispatch st acc with pstate := PState.ground }
    else escStep st b
  | PState.dcsString =>
    if b = 27 then { st with pstate := PState.dcsEscape }
    else st
  | PState.dcsEscape =>
    if b = 92 then { st with pstate := PState.ground }
    else escStep st b

/-- Modelled from the spec: `feed(bytes)` — the sole ingestion point;
consumes an arbitrary-length byte chunk synchronously, one byte at a time;
incomplete escape sequences are buffered in the parser state, which carries
between calls.  Total: no byte sequence raises an error to the caller. -/
def feed (st : Term) (bytes : List Nat) : Term :=
  bytes.foldl pstep st

/-- Truncate or blank-pad one row to exactly `c` cells (shrinking the
column count truncates, no reflow). -/
def fitRow (c attr : Nat) (row : Row) : Row :=
  { row with cells := row.cells.take c ++ List.replicate (c - row.cells.length) (blankCell attr) }

/-- Modelled from the spec: `resize(new_rows, new_columns)` — a size outside
the valid range is clamped; rows beyond the new row count are pushed into
the ScrollbackStore oldest first; shrinking the column count truncates
lines (no reflow) and growing pads with blank cells; the cursor is
preserved clamped to the new bounds; the scrolling region resets to the
full grid. -/
def resize (st : Term) (newRows newCols : Nat) : Term :=
  { st with
    rows := max 1 newRows, cols := max 1 newCols
    grid := (st.grid.drop (st.grid.length - max 1 newRows)).map (fitRow (max 1 newCols) st.curAttr) ++ List.replicate (max 1 newRows - (st.grid.drop (st.grid.length - max 1 newRows)).length) (blankRow (max 1 newCols) st.curAttr)
    curRow := min st.curRow (max 1 newRows - 1)
    curCol := min st.curCol (max 1 newCols - 1)
    regTop := 0, regBottom := max 1 newRows - 1
    sb := (st.grid.take (st.grid.length - max 1 newRows)).foldl ScrollbackStore.push st.sb }

/-- Modelled from the spec: `cell_at(row, col)` — read-only query, an
out-of-range coordinate clamped rather than reported as a failure. -/
def cell_at (st : Term) (r c : Nat) : Cell :=
  ((st.grid.getD (min r (st.rows - 1)) (blankRow st.cols 0)).cells).getD
    (min c (st.cols - 1)) (blankCell 0)

/-- `row_count()` query. -/
def row_count (st : Term) : Nat := st.rows

/-- `column_count()` query. -/
def column_count (st : Term) : Nat := st.cols

/-- `cursor_position()` query. -/
def cursor_position (st : Term) : Nat × Nat := (st.curRow, st.curCol)

/-- The character content of one row. -/
def rowText (r : Row) : List Nat := r.cells.map (fun c => c.ch)

/-- Modelled from the spec: the concatenated row text of scrollback plus
visible grid that the search engine scans. -/
def bufferText (st : Term) : List Nat :=
  ((st.sb.rows ++ st.grid).map rowText).flatten

/-- Whether `p` occurs in `t` at offset `i`. -/
def matchAt (t p : List Nat) (i : Nat) : Bool :=
  (t.drop i).take p.length == p

/-- All offsets at which `p` occurs in `t`, in increasing order. -/
def occurrences (t p : List Nat) : List Nat :=
  (List.range (t.length + 1)).filter (fun i => matchAt t p i)

/-- Modelled from the spec:
`search(pattern, start_position, direction, wrap_around)` — linear scan
over the concatenated row text in the given direction; on reaching the end,
if wrap_around is enabled, continue from the opposite end exactly once,
otherwise report not-found (`none`). -/
def search (st : Term) (pattern : List Nat) (startPos : Nat) (forward wrapAround : Bool) :
    Option Nat :=
  if forward then
    match (occurrences (bufferText st) pattern).find? (fun i => startPos ≤ i) with
    | some i => some i
    | none => if wrapAround then (occurrences (bufferText st) pattern).head? else none
  else
    match ((occurrences (bufferText st) pattern).filter (fun i => i ≤ startPos)).getLast? with
    | some i => some i
    | none => if wrapAround then (occurrences (bufferText st) pattern).getLast? else none

/-- Well-formedness of the terminal state: positive dimensions, the grid is
exactly `rows` rows of exactly `cols` cells, the cursor and scrolling
region lie inside the grid, and the scrollback count is within its
configured maximum. -/
def WF (st : Term) : Prop :=
  1 ≤ st.rows ∧ 1 ≤ st.cols ∧
  st.grid.length = st.rows ∧
  (∀ r ∈ st.grid, r.cells.length = st.cols) ∧
  st.curRow < st.rows ∧ st.curCol < st.cols ∧
  st.regTop ≤ st.regBottom ∧ st.regBottom < st.rows ∧
  st.sb.rows.length ≤ st.sb.maxRows

/-- The parameter bytes of a CSI sequence: digits, `:`/`;` separators and
the private markers `<=>?`. -/
def paramByte (b : Nat) : Prop :=
  (48 ≤ b ∧ b ≤ 57) ∨ b = 58 ∨ b = 59 ∨ (60 ≤ b ∧ b ≤ 63)

instance (b : Nat) : Decidable (paramByte b) := by
  unfold paramByte
  infer_instance

end Core

namespace Glue

/-- SIGHUP, as on Linux. -/
def SIGHUP : Nat := 1

/-- SIGINT, as on Linux. -/
def SIGINT : Nat := 2

/-- SIGTERM, as on Linux. -/
def SIGTERM : Nat := 15

/-- EXIT_FAILURE from stdlib.h. -/
def EXIT_FAILURE : Nat := 1

/-- The process-wide global state of tinyterm.c: `static int child_pid = 0`. -/
structure ProcState where
  child_pid : Int
  deriving Repr, DecidableEq

/-- The initial value of the global: `static int child_pid = 0;`. -/
def initialProcState : ProcState := { child_pid := 0 }

/-- `vte_spawn`'s effect on the global: `g_spawn_async(..., &child_pid, ...)`
stores the spawned child's pid into the process-wide global variable. -/
def vte_spawn (s : ProcState) (pid : Int) : ProcState :=
  { s with child_pid := pid }

/-- The signals `main` registers `signal_handler` for
(lines 374–376 of tinyterm.c). -/
def registeredSignals : List Nat := [SIGHUP, SIGINT, SIGTERM]

/-- `signal_handler(int signal)`: if `child_pid != 0` it sends SIGHUP to
`child_pid` via `kill`, then calls `exit(signal)`.  The result is the
optional kill action (target pid, signal sent) and the exit status. -/
def signal_handler (s : ProcState) (signal : Nat) : Option (Int × Nat) × Nat :=
  (if s.child_pid ≠ 0 then some (s.child_pid, SIGHUP) else none, signal)

/-- Key-binding configuration from config.h: the modifier mask
`TINYTERM_MODIFIER` and the seven bound key values. -/
structure KeyConfig where
  modifier : Nat
  keyCopy : Nat
  keyPaste : Nat
  keyOpen : Nat
  keyFontEnlarge : Nat
  keyFontShrink : Nat
  keyFontReset : Nat
  keyFullscreen : Nat
  deriving Repr, DecidableEq

/-- A GdkEventKey as far as `key_press_cb` reads it: the modifier state
bitmask and the key value. -/
structure KeyEvent where
  state : Nat
  keyval : Nat
  deriving Repr, DecidableEq

/-- `key_press_cb` (tinyterm.c lines 139–168): when all bits of
`TINYTERM_MODIFIER` are held, switch on `gdk_keyval_to_upper(event->keyval)`
over the six action keys, returning TRUE on a match and FALSE otherwise;
when the mask is not fully held, return TRUE exactly when the raw keyval is
`TINYTERM_KEY_FULLSCREEN`; in all remaining cases return FALSE.
`toUpper` stands for `gdk_keyval_to_upper`. -/
def key_press_cb (cfg : KeyConfig) (toUpper : Nat → Nat) (event : KeyEvent) : Bool :=
  if event.state &&& cfg.modifier == cfg.modifier then
    let k := toUpper event.keyval
    k == cfg.keyCopy || k == cfg.keyPaste || k == cfg.keyOpen ||
    k == cfg.keyFontEnlarge || k == cfg.keyFontShrink || k == cfg.keyFontReset
  else
    event.keyval == cfg.keyFullscreen

/-- `WIFEXITED(status)` on Linux: the child terminated normally when the low
seven bits of the wait status are zero. -/
def WIFEXITED (status : Nat) : Bool := status % 128 == 0

/-- `WEXITSTATUS(status)` on Linux: bits 8–15 of the wait status. -/
def WEXITSTATUS (status : Nat) : Nat := status / 256 % 256

/-- `vte_exit_cb` (tinyterm.c lines 257–263): quit the main loop and
`exit(WIFEXITED(status) ? WEXITSTATUS(status) : EXIT_FAILURE)`. -/
def vte_exit_cb (status : Nat) : Nat :=
  if WIFEXITED status then WEXITSTATUS status else EXIT_FAILURE

/-- `main`'s wiring of the `keep` option (tinyterm.c lines 348–349): the
`child-exited` signal is connected to `vte_exit_cb` iff `keep` is unset. -/
def child_exited_connected (keep : Bool) : Bool := !keep

/-- The process's reaction to the child exiting with wait status `status`:
`some code` when the process exits with `code`, `none` when it keeps
running.  With `keep` the callback was never connected, so nothing
happens; otherwise `vte_exit_cb` runs. -/
def on_child_exit (keep : Bool) (status : Nat) : Option Nat :=
  if child_exited_connected keep then some (vte_exit_cb status) else none

end Glue

namespace Core

theorem length_listUpd {α : Type} (l : List α) (n : Nat) (f : α → α) :
    (listUpd l n f).length = l.length := by
  induction l generalizing n with
  | nil => rfl
  | cons a l ih =>
    cases n with
    | zero => rfl
    | succ n => simp [listUpd, ih]

theorem forall_mem_listUpd {α : Type} {P : α → Prop} (l : List α) (n : Nat) (f : α → α)
    (h : ∀ a ∈ l, P a) (hf : ∀ a ∈ l, P (f a)) : ∀ a ∈ listUpd l n f, P a := by
  induction l generalizing n with
  | nil => intro a ha; cases ha
  | cons a l ih =>
    have ha : P a := h a (List.mem_cons_self a l)
    have hfa : P (f a) := hf a (List.mem_cons_self a l)
    have hl : ∀ y ∈ l, P y := fun y hy => h y (List.mem_cons_of_mem a hy)
    have hfl : ∀ y ∈ l, P (f y) := fun y hy => hf y (List.mem_cons_of_mem a hy)
    cases n with
    | zero =>
      intro x hx
      rcases List.mem_cons.mp hx with hx | hx
      · exact hx ▸ hfa
      · exact hl x hx
    | succ n =>
      intro x hx
      rcases List.mem_cons.mp hx with hx | hx
      · exact hx ▸ ha
      · exact ih n hl hfl x hx

theorem listUpd_getD_self {α : Type} (l : List α) (n : Nat) (f : α → α) (d : α)
    (h : n < l.length) : (listUpd l n f).getD n d = f (l.getD n d) := by
  induction l generalizing n with
  | nil => simp at h
  | cons a l ih =>
    cases n with
    | zero => rfl
    | succ n => simpa [listUpd] using ih n (by simpa using h)

theorem listUpd_getD_other {α : Type} (l : List α) (m n : Nat) (f : α → α) (d : α)
    (h : m ≠ n) : (listUpd l n f).getD m d = l.getD m d := by
  induction l generalizing m n with
  | nil => rfl
  | cons a l ih =>
    cases n with
    | zero =>
      cases m with
      | zero => exact absurd rfl h
      | succ m => rfl
    | succ n =>
      cases m with
      | zero => rfl
      | succ m => simpa [listUpd] using ih m n (by omega)

theorem length_mapIdxFrom {α : Type} (f : Nat → α → α) (i : Nat) (l : List α) :
    (mapIdxFrom f i l).length = l.length := by
  induction l generalizing i with
  | nil => rfl
  | cons a l ih => simp [mapIdxFrom, ih]

theorem forall_mem_mapIdxFrom {α : Type} {P : α → Prop} (f : Nat → α → α) (l : List α)
    (h : ∀ i a, a ∈ l → P (f i a)) : ∀ i, ∀ b ∈ mapIdxFrom f i l, P b := by
  induction l with
  | nil => intro i b hb; cases hb
  | cons a l ih =>
    intro i b hb
    rcases List.mem_cons.mp hb with hb | hb
    · exact hb ▸ h i a (List.mem_cons_self a l)
    · exact ih (fun j y hy => h j y (List.mem_cons_of_mem a hy)) (i + 1) b hb

theorem blankRow_cells_length (cols attr : Nat) : (blankRow cols attr).cells.length = cols := by
  simp [blankRow]

theorem blankRange_length (attr a b : Nat) (cells : List Cell) :
    (blankRange attr a b cells).length = cells.length := by
  simp [blankRange, length_mapIdxFrom]

theorem push_maxRows (sb : ScrollbackStore) (row : Row) :
    (sb.push row).maxRows = sb.maxRows := by
  unfold ScrollbackStore.push
  split
  · rfl
  · split <;> rfl

theorem push_length_le (sb : ScrollbackStore) (row : Row)
    (h : sb.rows.length ≤ sb.maxRows) : (sb.push row).rows.length ≤ sb.maxRows := by
  unfold ScrollbackStore.push
  split
  · exact h
  · split
    · simp
      omega
    · simp
      omega

theorem foldl_push_maxRows (l : List Row) (sb : ScrollbackStore) :
    (l.foldl ScrollbackStore.push sb).maxRows = sb.maxRows := by
  induction l generalizing sb with
  | nil => rfl
  | cons a l ih => simp [List.foldl_cons, ih, push_maxRows]

theorem foldl_push_length_le (l : List Row) (sb : ScrollbackStore)
    (h : sb.rows.length ≤ sb.maxRows) :
    (l.foldl ScrollbackStore.push sb).rows.length ≤ sb.maxRows := by
  induction l generalizing sb with
  | nil => exact h
  | cons a l ih =>
    have h1 := push_length_le sb a h
    have h2 := push_maxRows sb a
    simpa [List.foldl_cons, h2] using ih (sb.push a) (by omega)

theorem WF_setCursor (st : Term) (r c : Nat) (h : WF st) : WF (setCursor st r c) := by
  obtain ⟨h1, h2, h3, h4, h5, h6, h7, h8, h9⟩ := h
  exact ⟨h1, h2, h3, h4, by simp [setCursor]; omega, by simp [setCursor]; omega, h7, h8, h9⟩

theorem WF_writeCellAt (st : Term) (r c : Nat) (cell : Cell) (h : WF st) :
    WF (writeCellAt st r c cell) := by
  obtain ⟨h1, h2, h3, h4, h5, h6, h7, h8, h9⟩ := h
  refine ⟨h1, h2, ?_, ?_, h5, h6, h7, h8, h9⟩
  · simp [writeCellAt, length_listUpd, h3]
  · simp only [writeCellAt]
    exact forall_mem_listUpd _ _ _ h4
      (fun a ha => by simp [length_listUpd, h4 a ha])

theorem length_scrolledGrid (st : Term) (h3 : st.grid.length = st.rows)
    (h7 : st.regTop ≤ st.regBottom) (h8 : st.regBottom < st.rows) :
    (scrolledGrid st).length = st.rows := by
  simp only [scrolledGrid, List.length_append, List.length_take, List.length_drop,
    List.length_cons, List.length_nil]
  omega

theorem mem_scrolledGrid (st : Term) (r : Row) (hr : r ∈ scrolledGrid st) :
    r ∈ st.grid ∨ r = blankRow st.cols st.curAttr := by
  simp only [scrolledGrid, List.mem_append, List.mem_cons, List.not_mem_nil, or_false] at hr
  rcases hr with (hr | hr) | hr
  · exact Or.inl (List.mem_of_mem_take hr)
  · rcases hr with hr | hr
    · exact Or.inl (List.mem_of_mem_drop (List.mem_of_mem_take (List.mem_of_mem_drop hr)))
    · exact Or.inr hr
  · exact Or.inl (List.mem_of_mem_drop hr)

theorem scrolledSb_maxRows (st : Term) : (scrolledSb st).maxRows = st.sb.maxRows := by
  unfold scrolledSb
  split
  · cases h : st.grid.head? <;> simp [push_maxRows]
  · rfl

theorem scrolledSb_length_le (st : Term) (h9 : st.sb.rows.length ≤ st.sb.maxRows) :
    (scrolledSb st).rows.length ≤ st.sb.maxRows := by
  unfold scrolledSb
  split
  · cases h : st.grid.head? <;> simp [push_length_le, h9]
  · exact h9

theorem WF_scrollRegionUp (st : Term) (h : WF st) : WF (scrollRegionUp st) := by
  obtain ⟨h1, h2, h3, h4, h5, h6, h7, h8, h9⟩ := h
  refine ⟨h1, h2, ?_, ?_, h5, h6, h7, h8, ?_⟩
  · exact length_scrolledGrid st h3 h7 h8
  · intro r hr
    rcases mem_scrolledGrid st r hr with hr | hr
    · exact h4 r hr
    · rw [hr]; exact blankRow_cells_length _ _
  · show (scrolledSb st).rows.length ≤ (scrolledSb st).maxRows
    rw [scrolledSb_maxRows]
    exact scrolledSb_length_le st h9

theorem WF_lineFeed (st : Term) (h : WF st) : WF (lineFeed st) := by
  unfold lineFeed
  split
  · exact WF_scrollRegionUp st h
  · obtain ⟨h1, h2, h3, h4, h5, h6, h7, h8, h9⟩ := h
    split
    · exact ⟨h1, h2, h3, h4, by show st.curRow + 1 < st.rows; omega, h6, h7, h8, h9⟩
    · exact ⟨h1, h2, h3, h4, h5, h6, h7, h8, h9⟩

theorem WF_printChar (st : Term) (b : Nat) (h : WF st) : WF (printChar st b) := by
  have hw := WF_writeCellAt st st.curRow st.curCol { ch := b, attr := st.curAttr } h
  unfold printChar
  split
  · obtain ⟨h1, h2, h3, h4, h5, h6, h7, h8, h9⟩ := hw
    refine ⟨h1, h2, h3, h4, h5, ?_, h7, h8, h9⟩
    show st.curCol + 1 < (writeCellAt st st.curRow st.curCol { ch := b, attr := st.curAttr }).cols
    simp only [writeCellAt]
    omega
  · split
    · have hwrap : WF { writeCellAt st st.curRow st.curCol { ch := b, attr := st.curAttr } with
        grid := listUpd (writeCellAt st st.curRow st.curCol
          { ch := b, attr := st.curAttr }).grid (min st.curRow (st.rows - 1))
          (fun r => { r with wrapped := true }) } := by
        obtain ⟨h1, h2, h3, h4, h5, h6, h7, h8, h9⟩ := hw
        refine ⟨h1, h2, ?_, ?_, h5, h6, h7, h8, h9⟩
        · show (listUpd _ _ _).length = _
          rw [length_listUpd]
          exact h3
        · exact forall_mem_listUpd _ _ _ h4 (fun a ha => h4 a ha)
      have hlf := WF_lineFeed _ hwrap
      obtain ⟨h1, h2, h3, h4, h5, h6, h7, h8, h9⟩ := hlf
      exact ⟨h1, h2, h3, h4, h5, Nat.lt_of_lt_of_le Nat.zero_lt_one h2, h7, h8, h9⟩
    · exact hw

theorem elFn_length (st : Term) (mode : Nat) (cells : List Cell) :
    (elFn st mode cells).length = cells.length := by
  unfold elFn
  split_ifs <;> simp [blankRange_length]

theorem WF_eraseInLine (st : Term) (mode : Nat) (h : WF st) : WF (eraseInLine st mode) := by
  obtain ⟨h1, h2, h3, h4, h5, h6, h7, h8, h9⟩ := h
  refine ⟨h1, h2, ?_, ?_, h5, h6, h7, h8, h9⟩
  · show (listUpd _ _ _).length = st.rows
    rw [length_listUpd]
    exact h3
  · refine forall_mem_listUpd _ _ _ h4 (fun a ha => ?_)
    show (elFn st mode a.cells).length = st.cols
    rw [elFn_length]
    exact h4 a ha

theorem WF_eraseInDisplay (st : Term) (mode : Nat) (h : WF st) : WF (eraseInDisplay st mode) := by
  unfold eraseInDisplay
  split_ifs with hm0 hm1 hm2
  · obtain ⟨h1, h2, h3, h4, h5, h6, h7, h8, h9⟩ := WF_eraseInLine st 0 h
    refine ⟨h1, h2, ?_, ?_, h5, h6, h7, h8, h9⟩
    · show (mapIdxFrom _ _ _).length = st.rows
      rw [length_mapIdxFrom]
      exact h3
    · refine forall_mem_mapIdxFrom _ _ (fun i a ha => ?_) 0
      show (if st.curRow < i then blankRow st.cols st.curAttr else a).cells.length = st.cols
      split_ifs
      · exact blankRow_cells_length _ _
      · exact h4 a ha
  · obtain ⟨h1, h2, h3, h4, h5, h6, h7, h8, h9⟩ := WF_eraseInLine st 1 h
    refine ⟨h1, h2, ?_, ?_, h5, h6, h7, h8, h9⟩
    · show (mapIdxFrom _ _ _).length = st.rows
      rw [length_mapIdxFrom]
      exact h3
    · refine forall_mem_mapIdxFrom _ _ (fun i a ha => ?_) 0
      show (if i < st.curRow then blankRow st.cols st.curAttr else a).cells.length = st.cols
      split_ifs
      · exact blankRow_cells_length _ _
      · exact h4 a ha
  · obtain ⟨h1, h2, h3, h4, h5, h6, h7, h8, h9⟩ := h
    refine ⟨h1, h2, ?_, ?_, h5, h6, h7, h8, h9⟩
    · show (st.grid.map _).length = st.rows
      rw [List.length_map]
      exact h3
    · intro r hr
      rcases List.mem_map.mp hr with ⟨a, _, ha⟩
      rw [← ha]
      exact blankRow_cells_length _ _
  · exact h

theorem padCells_length (c attr : Nat) (cells : List Cell) :
    (padCells c attr cells).length = c := by
  simp only [padCells, List.length_append, List.length_take, List.length_replicate]
  omega

theorem padRows_length (cnt cols attr : Nat) (l : List Row) :
    (padRows cnt cols attr l).length = cnt := by
  simp only [padRows, List.length_append, List.length_take, List.length_replicate]
  omega

theorem mem_padRows (cnt cols attr : Nat) (l : List Row) (r : Row)
    (hr : r ∈ padRows cnt cols attr l) : r ∈ l ∨ r = blankRow cols attr := by
  rcases List.mem_append.mp hr with hr | hr
  · exact Or.inl (List.mem_of_mem_take hr)
  · exact Or.inr (List.eq_of_mem_replicate hr)

theorem WF_insertCells (st : Term) (n : Nat) (h : WF st) : WF (insertCells st n) := by
  obtain ⟨h1, h2, h3, h4, h5, h6, h7, h8, h9⟩ := h
  refine ⟨h1, h2, ?_, ?_, h5, h6, h7, h8, h9⟩
  · show (listUpd _ _ _).length = st.rows
    rw [length_listUpd]
    exact h3
  · refine forall_mem_listUpd _ _ _ h4 (fun a ha => ?_)
    show (padCells st.cols st.curAttr _).length = st.cols
    exact padCells_length _ _ _

theorem WF_deleteCells (st : Term) (n : Nat) (h : WF st) : WF (deleteCells st n) := by
  obtain ⟨h1, h2, h3, h4, h5, h6, h7, h8, h9⟩ := h
  refine ⟨h1, h2, ?_, ?_, h5, h6, h7, h8, h9⟩
  · show (listUpd _ _ _).length = st.rows
    rw [length_listUpd]
    exact h3
  · refine forall_mem_listUpd _ _ _ h4 (fun a ha => ?_)
    show (padCells st.cols st.curAttr _).length = st.cols
    exact padCells_length _ _ _

theorem WF_insertLines (st : Term) (n : Nat) (h : WF st) : WF (insertLines st n) := by
  unfold insertLines
  split_ifs with hin
  · obtain ⟨h1, h2, h3, h4, h5, h6, h7, h8, h9⟩ := h
    refine ⟨h1, h2, ?_, ?_, h5, h6, h7, h8, h9⟩
    · show (st.grid.take st.curRow ++ _ ++ st.grid.drop (st.regBottom + 1)).length = st.rows
      simp only [List.length_append, List.length_take, List.length_drop, padRows_length]
      omega
    · intro r hr
      show r.cells.length = st.cols
      rcases List.mem_append.mp hr with hr | hr
      · rcases List.mem_append.mp hr with hr | hr
        · exact h4 r (List.mem_of_mem_take hr)
        · rcases mem_padRows _ _ _ _ _ hr with hr | hr
          · rcases List.mem_append.mp hr with hr | hr
            · rw [List.eq_of_mem_replicate hr]
              exact blankRow_cells_length _ _
            · exact h4 r (List.mem_of_mem_drop (List.mem_of_mem_take hr))
          · rw [hr]
            exact blankRow_cells_length _ _
      · exact h4 r (List.mem_of_mem_drop hr)
  · exact h

theorem WF_deleteLines (st : Term) (n : Nat) (h : WF st) : WF (deleteLines st n) := by
  unfold deleteLines
  split_ifs with hin
  · obtain ⟨h1, h2, h3, h4, h5, h6, h7, h8, h9⟩ := h
    refine ⟨h1, h2, ?_, ?_, h5, h6, h7, h8, h9⟩
    · show (st.grid.take st.curRow ++ _ ++ st.grid.drop (st.regBottom + 1)).length = st.rows
      simp only [List.length_append, List.length_take, List.length_drop, padRows_length]
      omega
    · intro r hr
      show r.cells.length = st.cols
      rcases List.mem_append.mp hr with hr | hr
      · rcases List.mem_append.mp hr with hr | hr
        · exact h4 r (List.mem_of_mem_take hr)
        · rcases mem_padRows _ _ _ _ _ hr with hr | hr
          · exact h4 r (List.mem_of_mem_drop (List.mem_of_mem_take (List.mem_of_mem_drop hr)))
          · rw [hr]
            exact blankRow_cells_length _ _
      · exact h4 r (List.mem_of_mem_drop hr)
  · exact h

theorem WF_setRegion (st : Term) (params : List Nat) (h : WF st) : WF (setRegion st params) := by
  unfold setRegion
  split
  case isTrue htb =>
    obtain ⟨h1, h2, h3, h4, h5, h6, h7, h8, h9⟩ := h
    refine ⟨h1, h2, h3, h4, ?_, ?_, Nat.le_of_lt htb, ?_, h9⟩
    · show min 0 (st.rows - 1) < st.rows
      omega
    · show min 0 (st.cols - 1) < st.cols
      omega
    · show regionBot st params < st.rows
      unfold regionBot
      split_ifs <;> omega
  case isFalse _ => exact h

theorem WF_restoreCursor (st : Term) (h : WF st) : WF (restoreCursor st) := by
  unfold restoreCursor
  split
  · exact h
  · exact WF_setCursor st _ _ h

theorem WF_csiDispatch (st : Term) (priv : Bool) (params : List Nat) (f : Nat) (h : WF st) :
    WF (csiDispatch st priv params f) := by
  unfold csiDispatch
  split
  · exact WF_setCursor st _ _ h
  · exact WF_setCursor st _ _ h
  · exact WF_setCursor st _ _ h
  · exact WF_setCursor st _ _ h
  · exact WF_setCursor st _ _ h
  · exact WF_setCursor st _ _ h
  · exact WF_eraseInDisplay st _ h
  · exact WF_eraseInLine st _ h
  · exact WF_insertLines st _ h
  · exact WF_deleteLines st _ h
  · exact WF_insertCells st _ h
  · exact WF_deleteCells st _ h
  · exact h
  · exact WF_setRegion st _ h
  · split_ifs <;> exact h
  · split_ifs <;> exact h
  · exact h
  · exact WF_restoreCursor st h
  · exact h

theorem WF_oscDispatch (st : Term) (acc : List Nat) (h : WF st) : WF (oscDispatch st acc) := by
  unfold oscDispatch
  split_ifs <;> exact h

theorem WF_escStep (st : Term) (b : Nat) (h : WF st) : WF (escStep st b) := by
  unfold escStep
  split_ifs <;> exact h

theorem WF_groundStep (st : Term) (b : Nat) (h : WF st) : WF (groundStep st b) := by
  obtain ⟨h1, h2, h3, h4, h5, h6, h7, h8, h9⟩ := h
  unfold groundStep
  split_ifs
  · exact ⟨h1, h2, h3, h4, h5, h6, h7, h8, h9⟩
  · exact WF_lineFeed st ⟨h1, h2, h3, h4, h5, h6, h7, h8, h9⟩
  · exact ⟨h1, h2, h3, h4, h5, h2, h7, h8, h9⟩
  · exact ⟨h1, h2, h3, h4, h5, by show st.curCol - 1 < st.cols; omega, h7, h8, h9⟩
  · exact WF_setCursor st _ _ ⟨h1, h2, h3, h4, h5, h6, h7, h8, h9⟩
  · exact ⟨h1, h2, h3, h4, h5, h6, h7, h8, h9⟩
  · exact WF_printChar st b ⟨h1, h2, h3, h4, h5, h6, h7, h8, h9⟩

theorem WF_pstep (st : Term) (b : Nat) (h : WF st) : WF (pstep st b) := by
  unfold pstep
  split
  · exact WF_groundStep st b h
  · exact WF_escStep st b h
  · split_ifs <;> first | exact h | exact WF_csiDispatch st _ _ _ h
  · split_ifs <;> first | exact h | exact WF_csiDispatch st _ _ _ h
  · split_ifs <;> exact h
  · split_ifs <;> first | exact h | exact WF_oscDispatch st _ h
  · split_ifs
    · exact WF_oscDispatch st _ h
    · exact WF_escStep st b h
  · split_ifs <;> exact h
  · split_ifs
    · exact h
    · exact WF_escStep st b h

theorem WF_feed (st : Term) (bs : List Nat) (h : WF st) : WF (feed st bs) := by
  induction bs generalizing st with
  | nil => exact h
  | cons b bs ih => exact ih (pstep st b) (WF_pstep st b h)

theorem fitRow_cells_length (c attr : Nat) (row : Row) : (fitRow c attr row).cells.length = c := by
  simp only [fitRow, List.length_append, List.length_take, List.length_replicate]
  omega

theorem WF_resize (st : Term) (newRows newCols : Nat) (h : WF st) : WF (resize st newRows newCols) := by
  obtain ⟨h1, h2, h3, h4, h5, h6, h7, h8, h9⟩ := h
  refine ⟨?_, ?_, ?_, ?_, ?_, ?_, ?_, ?_, ?_⟩
  · show 1 ≤ max 1 newRows
    omega
  · show 1 ≤ max 1 newCols
    omega
  · show (_ ++ _ : List Row).length = max 1 newRows
    simp only [List.length_append, List.length_map, List.length_drop, List.length_replicate]
    omega
  · intro r hr
    show r.cells.length = max 1 newCols
    rcases List.mem_append.mp hr with hr | hr
    · rcases List.mem_map.mp hr with ⟨a, _, ha⟩
      rw [← ha]
      exact fitRow_cells_length _ _ _
    · rw [List.eq_of_mem_replicate hr]
      exact blankRow_cells_length _ _
  · show min st.curRow (max 1 newRows - 1) < max 1 newRows
    omega
  · show min st.curCol (max 1 newCols - 1) < max 1 newCols
    omega
  · show (0 : Nat) ≤ max 1 newRows - 1
    omega
  · show max 1 newRows - 1 < max 1 newRows
    omega
  · show (List.foldl _ _ _ : ScrollbackStore).rows.length ≤ (List.foldl _ _ _ : ScrollbackStore).maxRows
    rw [foldl_push_maxRows]
    exact foldl_push_length_le _ _ h9

theorem WF_initTerm (rows cols sbMax : Nat) (aw : Bool) : WF (initTerm rows cols sbMax aw) := by
  refine ⟨?_, ?_, ?_, ?_, ?_, ?_, ?_, ?_, ?_⟩
  · show 1 ≤ max 1 rows
    omega
  · show 1 ≤ max 1 cols
    omega
  · show (List.replicate (max 1 rows) (blankRow (max 1 cols) 0)).length = max 1 rows
    simp
  · intro r hr
    rw [List.eq_of_mem_replicate hr]
    exact blankRow_cells_length _ _
  · show 0 < max 1 rows
    omega
  · show 0 < max 1 cols
    omega
  · show (0 : Nat) ≤ max 1 rows - 1
    omega
  · show max 1 rows - 1 < max 1 rows
    omega
  · show (0 : Nat) ≤ sbMax
    omega

theorem pstep_ground (st : Term) (b : Nat) (hg : st.pstate = PState.ground) :
    pstep st b = groundStep st b := by
  unfold pstep
  rw [hg]

theorem groundStep_printable (st : Term) (b : Nat) (hb : 32 ≤ b ∧ b ≤ 126) :
    groundStep st b = printChar st b := by
  unfold groundStep
  split_ifs <;> first | rfl | omega

theorem groundStep_lf (st : Term) : groundStep st 10 = lineFeed st := by
  unfold groundStep
  norm_num

theorem lineFeed_move (st : Term) (hne : st.curRow ≠ st.regBottom) (hlt : st.curRow + 1 < st.rows) :
    lineFeed st = { st with curRow := st.curRow + 1 } := by
  unfold lineFeed
  rw [if_neg hne, if_pos hlt]

theorem lineFeed_scroll (st : Term) (hbot : st.curRow = st.regBottom) :
    lineFeed st = scrollRegionUp st := by
  unfold lineFeed
  rw [if_pos hbot]

theorem printChar_noLast (st : Term) (b : Nat) (hlt : st.curCol + 1 < st.cols) :
    printChar st b =
      { writeCellAt st st.curRow st.curCol { ch := b, attr := st.curAttr } with
        curCol := st.curCol + 1 } := by
  unfold printChar
  rw [if_pos hlt]

theorem printChar_wrapStep (st : Term) (b : Nat) (hcol : ¬ (st.curCol + 1 < st.cols))
    (haw : st.autowrap = true) :
    printChar st b =
      { lineFeed { writeCellAt st st.curRow st.curCol { ch := b, attr := st.curAttr } with
          grid := listUpd (writeCellAt st st.curRow st.curCol
            { ch := b, attr := st.curAttr }).grid (min st.curRow (st.rows - 1))
            (fun r => { r with wrapped := true }) } with
        curCol := 0 } := by
  unfold printChar
  rw [if_neg hcol, if_pos haw]

theorem printChar_noWrap (st : Term) (b : Nat) (hcol : ¬ (st.curCol + 1 < st.cols))
    (hnaw : st.autowrap = false) :
    printChar st b = writeCellAt st st.curRow st.curCol { ch := b, attr := st.curAttr } := by
  unfold printChar
  rw [if_neg hcol, if_neg (by simp [hnaw])]

theorem feed_append (st : Term) (xs ys : List Nat) :
    feed st (xs ++ ys) = feed (feed st xs) ys := by
  simp [feed, List.foldl_append]

theorem feed_cons (st : Term) (b : Nat) (bs : List Nat) :
    feed st (b :: bs) = feed (pstep st b) bs := rfl

theorem pstate_eta (st : Term) (hg : st.pstate = PState.ground) :
    { st with pstate := PState.ground } = st := by
  cases st
  simp_all

theorem csiDispatch_unrecognized (st : Term) (priv : Bool) (params : List Nat) (f : Nat)
    (hfr : f ∉ recognizedCsiFinals) : csiDispatch st priv params f = st := by
  unfold csiDispatch
  split <;> simp_all [recognizedCsiFinals]

theorem cell_at_write (st : Term) (r c : Nat) (cell : Cell) (h : WF st)
    (hr : r < st.rows) (hc : c < st.cols) :
    cell_at (writeCellAt st r c cell) r c = cell := by
  obtain ⟨h1, h2, h3, h4, h5, h6, h7, h8, h9⟩ := h
  have hmr : min r (st.rows - 1) = r := by omega
  have hmc : min c (st.cols - 1) = c := by omega
  have hrow : (st.grid.getD r (blankRow st.cols 0)).cells.length = st.cols := by
    rw [List.getD_eq_getElem st.grid _ (by omega)]
    exact h4 _ (List.getElem_mem _)
  show ((listUpd st.grid (min r (st.rows - 1)) _).getD (min r (st.rows - 1)) (blankRow st.cols 0)).cells.getD (min c (st.cols - 1)) (blankCell 0) = cell
  rw [hmr, hmc]
  rw [listUpd_getD_self st.grid r _ _ (by omega)]
  show (listUpd (st.grid.getD r (blankRow st.cols 0)).cells c _).getD c (blankCell 0) = cell
  rw [listUpd_getD_self _ c _ _ (by omega)]

theorem feed_csiParam (st0 : Term) :
    ∀ (ps : List Nat), (∀ x ∈ ps, paramByte x) → ∀ (priv : Bool) (acc : List Nat) (cur : Nat),
      ∃ priv' acc' cur',
        feed { st0 with pstate := PState.csiParam priv acc cur } ps
          = { st0 with pstate := PState.csiParam priv' acc' cur' } := by
  intro ps
  induction ps with
  | nil =>
    intro _ priv acc cur
    exact ⟨priv, acc, cur, rfl⟩
  | cons b ps ih =>
    intro hps priv acc cur
    have hb : paramByte b := hps b (List.mem_cons_self b ps)
    have hrest : ∀ x ∈ ps, paramByte x := fun x hx => hps x (List.mem_cons_of_mem b hx)
    unfold paramByte at hb
    rw [feed_cons]
    simp only [pstep]
    split_ifs <;> first | exact ih hrest _ _ _ | omega

theorem feed_malformed_csi (st : Term) (ps : List Nat) (f : Nat)
    (hps : ∀ x ∈ ps, paramByte x) (hf : 64 ≤ f ∧ f ≤ 126)
    (hfr : f ∉ recognizedCsiFinals) (hg : st.pstate = PState.ground) :
    feed st ((27 :: 91 :: ps) ++ [f]) = st := by
  have h1 : pstep st 27 = { st with pstate := PState.escape } := by
    rw [pstep_ground st 27 hg]
    unfold groundStep
    norm_num
  have h2 : pstep { st with pstate := PState.escape } 91 = { st with pstate := PState.csiEntry } := by
    simp only [pstep]
    unfold escStep
    norm_num
  rw [show (27 :: 91 :: ps) ++ [f] = 27 :: 91 :: (ps ++ [f]) from rfl]
  rw [feed_cons, h1, feed_cons, h2]
  cases ps with
  | nil =>
    show pstep { st with pstate := PState.csiEntry } f = st
    simp only [pstep]
    split_ifs <;> try omega
    rw [csiDispatch_unrecognized _ _ _ _ hfr]
    exact pstate_eta st hg
  | cons p ps' =>
    have hp : paramByte p := hps p (List.mem_cons_self p ps')
    unfold paramByte at hp
    have hrest : ∀ x ∈ ps', paramByte x := fun x hx => hps x (List.mem_cons_of_mem p hx)
    show feed { st with pstate := PState.csiEntry } ((p :: ps') ++ [f]) = st
    rw [show (p :: ps') ++ [f] = p :: (ps' ++ [f]) from rfl, feed_cons]
    have h3 : ∃ pr a c, pstep { st with pstate := PState.csiEntry } p
        = { st with pstate := PState.csiParam pr a c } := by
      simp only [pstep]
      split_ifs <;> first | exact ⟨_, _, _, rfl⟩ | omega
    obtain ⟨pr, a, c, h3⟩ := h3
    rw [h3, feed_append]
    obtain ⟨pr', a', c', h4⟩ := feed_csiParam st ps' hrest pr a c
    rw [h4]
    show pstep { st with pstate := PState.csiParam pr' a' c' } f = st
    simp only [pstep]
    split_ifs <;> try omega
    rw [csiDispatch_unrecognized _ _ _ _ hfr]
    exact pstate_eta st hg

/-- C1: every grid coordinate used during dispatch is clamped to
`[0, rows) × [0, cols)` — feeding any byte sequence and any resize request
preserves well-formedness of the grid, cursor and region (so no Cell
outside the Grid is ever read or written), and an out-of-range `cell_at`
query is answered as if clamped, never as a failure. -/
theorem C1_no_out_of_bounds (st : Term) (bs : List Nat) (rr cc r c : Nat) (h : WF st) :
    WF (feed st bs) ∧ WF (resize st rr cc) ∧
    cell_at st r c = cell_at st (min r (st.rows - 1)) (min c (st.cols - 1)) := by
  refine ⟨WF_feed st bs h, WF_resize st rr cc h, ?_⟩
  simp [cell_at, Nat.min_assoc]

theorem C1_witness :
    WF (initTerm 3 4 5 true) ∧
    (WF (feed (initTerm 3 4 5 true) [27, 91, 57, 57, 66, 10, 200]) ∧
     WF (resize (initTerm 3 4 5 true) 0 7) ∧
     cell_at (initTerm 3 4 5 true) 99 88 =
       cell_at (initTerm 3 4 5 true) (min 99 ((initTerm 3 4 5 true).rows - 1))
         (min 88 ((initTerm 3 4 5 true).cols - 1))) :=
  ⟨WF_initTerm 3 4 5 true,
   C1_no_out_of_bounds (initTerm 3 4 5 true) [27, 91, 57, 57, 66, 10, 200] 0 7 99 88
     (WF_initTerm 3 4 5 true)⟩

/-- C2: `feed` is a total function (no byte sequence raises an error), state
is carried across `feed` boundaries (feeding `xs ++ ys` equals feeding `xs`
then `ys`), and a malformed CSI sequence — parameter bytes ended by an
unrecognized final byte — leaves the state exactly unchanged, so it cannot
corrupt the interpretation of well-formed sequences fed afterwards. -/
theorem C2_malformed_input_safe (st : Term) (xs ys ps : List Nat) (f : Nat)
    (hps : ∀ x ∈ ps, paramByte x) (hf : 64 ≤ f ∧ f ≤ 126)
    (hfr : f ∉ recognizedCsiFinals) (hg : st.pstate = PState.ground) :
    feed st (xs ++ ys) = feed (feed st xs) ys ∧
    feed st ((27 :: 91 :: ps) ++ [f]) = st ∧
    feed st (((27 :: 91 :: ps) ++ [f]) ++ ys) = feed st ys := by
  refine ⟨feed_append st xs ys, feed_malformed_csi st ps f hps hf hfr hg, ?_⟩
  rw [feed_append, feed_malformed_csi st ps f hps hf hfr hg]

theorem C2_witness :
    (∀ x ∈ [49, 59, 50], paramByte x) ∧ (64 ≤ 122 ∧ 122 ≤ 126) ∧
    122 ∉ recognizedCsiFinals ∧ (initTerm 2 2 3 true).pstate = PState.ground ∧
    (feed (initTerm 2 2 3 true) ([65] ++ [66]) =
       feed (feed (initTerm 2 2 3 true) [65]) [66] ∧
     feed (initTerm 2 2 3 true) ((27 :: 91 :: [49, 59, 50]) ++ [122]) = initTerm 2 2 3 true ∧
     feed (initTerm 2 2 3 true) (((27 :: 91 :: [49, 59, 50]) ++ [122]) ++ [66]) =
       feed (initTerm 2 2 3 true) [66]) :=
  ⟨by decide, by decide, by decide, rfl,
   C2_malformed_input_safe (initTerm 2 2 3 true) [65] [66] [49, 59, 50] 122
     (by decide) (by decide) (by decide) rfl⟩

/-- C3: the ScrollbackStore count never exceeds the configured maximum under
any sequence of pushes; with maximum 0 a push is a no-op dropping the row
immediately; and a push at capacity drops the oldest row first (FIFO). -/
theorem C3_scrollback_fifo_bound (sb : ScrollbackStore) (row : Row) (l : List Row)
    (h : sb.rows.length ≤ sb.maxRows) :
    (l.foldl ScrollbackStore.push sb).rows.length ≤ sb.maxRows ∧
    (sb.maxRows = 0 → sb.push row = sb) ∧
    (sb.rows.length = sb.maxRows → 0 < sb.maxRows →
      (sb.push row).rows = sb.rows.drop 1 ++ [row] ∧
      (sb.push row).rows.length = sb.maxRows) := by
  refine ⟨foldl_push_length_le l sb h, ?_, ?_⟩
  · intro h0
    unfold ScrollbackStore.push
    rw [if_pos h0]
  · intro hfull hpos
    unfold ScrollbackStore.push
    rw [if_neg (by omega), if_neg (by omega)]
    constructor
    · show sb.rows.drop (sb.rows.length + 1 - sb.maxRows) ++ [row] = sb.rows.drop 1 ++ [row]
      rw [show sb.rows.length + 1 - sb.maxRows = 1 from by omega]
    · show (sb.rows.drop (sb.rows.length + 1 - sb.maxRows) ++ [row]).length = sb.maxRows
      simp only [List.length_append, List.length_drop, List.length_cons, List.length_nil]
      omega

theorem C3_witness :
    ({ rows := [blankRow 1 0, blankRow 1 1], maxRows := 2 } : ScrollbackStore).rows.length ≤
      ({ rows := [blankRow 1 0, blankRow 1 1], maxRows := 2 } : ScrollbackStore).maxRows ∧
    (([blankRow 1 3, blankRow 1 4].foldl ScrollbackStore.push
        { rows := [blankRow 1 0, blankRow 1 1], maxRows := 2 }).rows.length ≤ 2 ∧
     ((2 : Nat) = 0 → ScrollbackStore.push { rows := [blankRow 1 0, blankRow 1 1], maxRows := 2 }
        (blankRow 1 2) = { rows := [blankRow 1 0, blankRow 1 1], maxRows := 2 }) ∧
     ((2 : Nat) = 2 → (0 : Nat) < 2 →
      (ScrollbackStore.push { rows := [blankRow 1 0, blankRow 1 1], maxRows := 2 }
         (blankRow 1 2)).rows = [blankRow 1 0, blankRow 1 1].drop 1 ++ [blankRow 1 2] ∧
      (ScrollbackStore.push { rows := [blankRow 1 0, blankRow 1 1], maxRows := 2 }
         (blankRow 1 2)).rows.length = 2)) :=
  ⟨by decide,
   C3_scrollback_fifo_bound { rows := [blankRow 1 0, blankRow 1 1], maxRows := 2 }
     (blankRow 1 2) [blankRow 1 3, blankRow 1 4] (by decide)⟩

/-- C6: resizing to `(r, c)` and back to the original size leaves the grid
dimensions exactly equal to the final call's arguments and the cursor equal
to its original value clamped to the componentwise minimum of the two
sizes; every resize sets the dimensions exactly to its (valid) arguments. -/
theorem C6_resize_roundtrip (st : Term) (r c : Nat) (h : WF st) (hr : 1 ≤ r) (hc : 1 ≤ c) :
    row_count (resize (resize st r c) st.rows st.cols) = st.rows ∧
    column_count (resize (resize st r c) st.rows st.cols) = st.cols ∧
    cursor_position (resize (resize st r c) st.rows st.cols) =
      (min st.curRow (min r st.rows - 1), min st.curCol (min c st.cols - 1)) ∧
    row_count (resize st r c) = r ∧ column_count (resize st r c) = c := by
  obtain ⟨h1, h2, h3, h4, h5, h6, h7, h8, h9⟩ := h
  refine ⟨?_, ?_, ?_, ?_, ?_⟩
  · show max 1 st.rows = st.rows
    omega
  · show max 1 st.cols = st.cols
    omega
  · show (min (min st.curRow (max 1 r - 1)) (max 1 st.rows - 1),
          min (min st.curCol (max 1 c - 1)) (max 1 st.cols - 1)) = _
    have e1 : min (min st.curRow (max 1 r - 1)) (max 1 st.rows - 1)
        = min st.curRow (min r st.rows - 1) := by omega
    have e2 : min (min st.curCol (max 1 c - 1)) (max 1 st.cols - 1)
        = min st.curCol (min c st.cols - 1) := by omega
    rw [e1, e2]
  · show max 1 r = r
    omega
  · show max 1 c = c
    omega

theorem C6_witness :
    WF { initTerm 5 6 0 true with curRow := 3, curCol := 4 } ∧ (1 : Nat) ≤ 2 ∧ (1 : Nat) ≤ 3 ∧
    (row_count (resize (resize { initTerm 5 6 0 true with curRow := 3, curCol := 4 } 2 3)
        { initTerm 5 6 0 true with curRow := 3, curCol := 4 }.rows
        { initTerm 5 6 0 true with curRow := 3, curCol := 4 }.cols) =
          { initTerm 5 6 0 true with curRow := 3, curCol := 4 }.rows ∧
     column_count (resize (resize { initTerm 5 6 0 true with curRow := 3, curCol := 4 } 2 3)
        { initTerm 5 6 0 true with curRow := 3, curCol := 4 }.rows
        { initTerm 5 6 0 true with curRow := 3, curCol := 4 }.cols) =
          { initTerm 5 6 0 true with curRow := 3, curCol := 4 }.cols ∧
     cursor_position (resize (resize { initTerm 5 6 0 true with curRow := 3, curCol := 4 } 2 3)
        { initTerm 5 6 0 true with curRow := 3, curCol := 4 }.rows
        { initTerm 5 6 0 true with curRow := 3, curCol := 4 }.cols) =
          (min 3 (min 2 { initTerm 5 6 0 true with curRow := 3, curCol := 4 }.rows - 1),
           min 4 (min 3 { initTerm 5 6 0 true with curRow := 3, curCol := 4 }.cols - 1)) ∧
     row_count (resize { initTerm 5 6 0 true with curRow := 3, curCol := 4 } 2 3) = 2 ∧
     column_count (resize { initTerm 5 6 0 true with curRow := 3, curCol := 4 } 2 3) = 3) :=
  ⟨by unfold WF initTerm; decide, by decide, by decide,
   C6_resize_roundtrip { initTerm 5 6 0 true with curRow := 3, curCol := 4 } 2 3
     (by unfold WF initTerm; decide) (by decide) (by decide)⟩

/-- C7: for a pattern that occurs in the buffer text only before the start
position, a forward search with wrap-around finds a match (one position) by
continuing from the opposite end, and the same search without wrap-around
reports not-found. -/
theorem C7_search_wrap_once (st : Term) (p : List Nat) (s : Nat)
    (hne : occurrences (bufferText st) p ≠ [])
    (hbefore : ∀ i ∈ occurrences (bufferText st) p, i < s) :
    (∃ j, search st p s true true = some j ∧ j ∈ occurrences (bufferText st) p ∧ j < s) ∧
    search st p s true false = none := by
  have hfind : (occurrences (bufferText st) p).find? (fun i => decide (s ≤ i)) = none := by
    rw [List.find?_eq_none]
    intro x hx
    simpa using Nat.not_le.mpr (hbefore x hx)
  constructor
  · refine ⟨(occurrences (bufferText st) p).head hne, ?_, List.head_mem hne,
      hbefore _ (List.head_mem hne)⟩
    unfold search
    rw [if_pos rfl, hfind]
    simp [List.head?_eq_head hne]
  · unfold search
    rw [if_pos rfl, hfind]
    simp

theorem C7_witness :
    occurrences (bufferText (feed (initTerm 2 3 0 true) [104, 105])) [104, 105] ≠ [] ∧
    (∀ i ∈ occurrences (bufferText (feed (initTerm 2 3 0 true) [104, 105])) [104, 105], i < 3) ∧
    ((∃ j, search (feed (initTerm 2 3 0 true) [104, 105]) [104, 105] 3 true true = some j ∧
        j ∈ occurrences (bufferText (feed (initTerm 2 3 0 true) [104, 105])) [104, 105] ∧ j < 3) ∧
     search (feed (initTerm 2 3 0 true) [104, 105]) [104, 105] 3 true false = none) :=
  ⟨by decide, by decide,
   C7_search_wrap_once (feed (initTerm 2 3 0 true) [104, 105]) [104, 105] 3
     (by decide) (by decide)⟩

theorem feed_fill_row (b : Nat) (hb : 32 ≤ b ∧ b ≤ 126) :
    ∀ (n : Nat) (st : Term), 1 ≤ n → WF st → st.pstate = PState.ground →
      st.autowrap = true → st.curRow = 0 → st.regBottom = st.rows - 1 →
      2 ≤ st.rows → st.curCol + n = st.cols →
      WF (feed st (List.replicate n b)) ∧
      (feed st (List.replicate n b)).rows = st.rows ∧
      (feed st (List.replicate n b)).cols = st.cols ∧
      (feed st (List.replicate n b)).curRow = 1 ∧
      (feed st (List.replicate n b)).curCol = 0 ∧
      (feed st (List.replicate n b)).pstate = PState.ground ∧
      ((feed st (List.replicate n b)).grid.getD 0 (blankRow 0 0)).wrapped = true := by
  intro n
  induction n with
  | zero => intro st h0; exact absurd h0 (by omega)
  | succ n ih =>
    intro st hn h hg haw hr0 hrb hrows hcol
    by_cases hn0 : n = 0
    · subst hn0
      obtain ⟨h1, h2, h3, h4, h5, h6, h7, h8, h9⟩ := h
      have hstep : feed st (List.replicate 1 b) = printChar st b := by
        rw [show List.replicate 1 b = [b] from rfl, feed_cons]
        show pstep st b = printChar st b
        rw [pstep_ground st b hg, groundStep_printable st b hb]
      have hpw := printChar_wrapStep st b (by omega) haw
      have hwf : WF (feed st (List.replicate 1 b)) :=
        WF_feed st _ ⟨h1, h2, h3, h4, h5, h6, h7, h8, h9⟩
      rw [hstep] at hwf ⊢
      rw [hpw] at hwf ⊢
      rw [lineFeed_move _ (by show ¬ st.curRow = st.regBottom; omega)
        (by show st.curRow + 1 < st.rows; omega)] at hwf ⊢
      refine ⟨hwf, rfl, rfl, ?_, rfl, hg, ?_⟩
      · show st.curRow + 1 = 1
        omega
      · show ((listUpd (writeCellAt st st.curRow st.curCol
            { ch := b, attr := st.curAttr }).grid (min st.curRow (st.rows - 1))
            (fun r => { r with wrapped := true })).getD 0 (blankRow 0 0)).wrapped = true
        have hm : min st.curRow (st.rows - 1) = 0 := by omega
        have hlen : 0 < (writeCellAt st st.curRow st.curCol
            { ch := b, attr := st.curAttr }).grid.length := by
          show 0 < (listUpd st.grid (min st.curRow (st.rows - 1)) _).length
          rw [length_listUpd]
          omega
        rw [hm, listUpd_getD_self _ _ _ _ hlen]
    · have hn1 : 1 ≤ n := by omega
      rw [List.replicate_succ, feed_cons]
      have hps : pstep st b = { writeCellAt st st.curRow st.curCol
          { ch := b, attr := st.curAttr } with curCol := st.curCol + 1 } := by
        rw [pstep_ground st b hg, groundStep_printable st b hb,
          printChar_noLast st b (by omega)]
      have hwfG : WF { writeCellAt st st.curRow st.curCol
          { ch := b, attr := st.curAttr } with curCol := st.curCol + 1 } := by
        rw [← hps]
        exact WF_pstep st b h
      rw [hps]
      exact ih _ hn1 hwfG hg haw hr0 hrb hrows (by show st.curCol + 1 + n = st.cols; omega)

/-- C4: with autowrap enabled, feeding exactly `columns` printable bytes and
then one more places the extra byte at column 0 of the next row, sets the
wrapped flag on the filled row, and leaves the cursor after the new byte;
with autowrap disabled, a printable byte arriving at the last column
overwrites the last cell and the cursor does not advance. -/
theorem C4_autowrap_wrap_and_overwrite (rows cols sbMax b b2 : Nat) (st : Term)
    (hrows : 2 ≤ rows) (hcols : 2 ≤ cols)
    (hb : 32 ≤ b ∧ b ≤ 126) (hb2 : 32 ≤ b2 ∧ b2 ≤ 126)
    (hst : WF st) (hstg : st.pstate = PState.ground) (hstaw : st.autowrap = false)
    (hstc : st.curCol = st.cols - 1) :
    (cell_at (feed (initTerm rows cols sbMax true)
        (List.replicate cols b ++ [b2])) 1 0).ch = b2 ∧
    ((feed (initTerm rows cols sbMax true)
        (List.replicate cols b ++ [b2])).grid.getD 0 (blankRow 0 0)).wrapped = true ∧
    cursor_position (feed (initTerm rows cols sbMax true)
        (List.replicate cols b ++ [b2])) = (1, 1) ∧
    (cell_at (feed st [b2]) st.curRow (st.cols - 1)).ch = b2 ∧
    cursor_position (feed st [b2]) = (st.curRow, st.curCol) := by
  obtain ⟨w1, w2, w3, w4, w5, w6, w7, w8, w9⟩ := hst
  have h0 : WF (initTerm rows cols sbMax true) := WF_initTerm rows cols sbMax true
  have hfill := feed_fill_row b hb cols (initTerm rows cols sbMax true)
    (by omega) h0 rfl rfl rfl rfl
    (by show 2 ≤ max 1 rows; omega)
    (by show 0 + cols = max 1 cols; omega)
  obtain ⟨hFwf, hFrows, hFcols, hFrow, hFcol, hFg, hFwrap⟩ := hfill
  rw [feed_append (initTerm rows cols sbMax true) (List.replicate cols b) [b2]]
  have hG : feed (feed (initTerm rows cols sbMax true) (List.replicate cols b)) [b2]
      = { writeCellAt (feed (initTerm rows cols sbMax true) (List.replicate cols b))
          (feed (initTerm rows cols sbMax true) (List.replicate cols b)).curRow
          (feed (initTerm rows cols sbMax true) (List.replicate cols b)).curCol
          { ch := b2, attr := (feed (initTerm rows cols sbMax true)
            (List.replicate cols b)).curAttr } with
          curCol := (feed (initTerm rows cols sbMax true)
            (List.replicate cols b)).curCol + 1 } := by
    rw [show feed (feed (initTerm rows cols sbMax true) (List.replicate cols b)) [b2]
        = pstep (feed (initTerm rows cols sbMax true) (List.replicate cols b)) b2 from rfl]
    rw [pstep_ground _ b2 hFg, groundStep_printable _ b2 hb2,
      printChar_noLast _ b2 (by rw [hFcol, hFcols]; show 0 + 1 < max 1 cols; omega)]
  rw [hG]
  have hcw : cell_at (writeCellAt (feed (initTerm rows cols sbMax true)
      (List.replicate cols b)) 1 0
      { ch := b2, attr := (feed (initTerm rows cols sbMax true)
        (List.replicate cols b)).curAttr }) 1 0
      = { ch := b2, attr := (feed (initTerm rows cols sbMax true)
        (List.replicate cols b)).curAttr } :=
    cell_at_write _ 1 0 _ hFwf
      (by rw [hFrows]; show 1 < max 1 rows; omega)
      (by rw [hFcols]; show 0 < max 1 cols; omega)
  refine ⟨?_, ?_, ?_, ?_, ?_⟩
  · show (cell_at (writeCellAt (feed (initTerm rows cols sbMax true)
        (List.replicate cols b))
        (feed (initTerm rows cols sbMax true) (List.replicate cols b)).curRow
        (feed (initTerm rows cols sbMax true) (List.replicate cols b)).curCol
        { ch := b2, attr := (feed (initTerm rows cols sbMax true)
          (List.replicate cols b)).curAttr }) 1 0).ch = b2
    rw [hFrow, hFcol, hcw]
  · show (((writeCellAt (feed (initTerm rows cols sbMax true)
        (List.replicate cols b))
        (feed (initTerm rows cols sbMax true) (List.replicate cols b)).curRow
        (feed (initTerm rows cols sbMax true) (List.replicate cols b)).curCol
        { ch := b2, attr := (feed (initTerm rows cols sbMax true)
          (List.replicate cols b)).curAttr }).grid).getD 0 (blankRow 0 0)).wrapped = true
    rw [hFrow, hFcol]
    show ((listUpd (feed (initTerm rows cols sbMax true) (List.replicate cols b)).grid
        (min 1 ((feed (initTerm rows cols sbMax true) (List.replicate cols b)).rows - 1)) _).getD
        0 (blankRow 0 0)).wrapped = true
    have hm1 : min 1 ((feed (initTerm rows cols sbMax true)
        (List.replicate cols b)).rows - 1) = 1 := by
      rw [hFrows]
      show min 1 (max 1 rows - 1) = 1
      omega
    rw [hm1, listUpd_getD_other _ 0 1 _ _ (by omega)]
    exact hFwrap
  · show ((feed (initTerm rows cols sbMax true) (List.replicate cols b)).curRow,
        (feed (initTerm rows cols sbMax true) (List.replicate cols b)).curCol + 1) = (1, 1)
    rw [hFrow, hFcol]
  · have hD : feed st [b2] = writeCellAt st st.curRow st.curCol
        { ch := b2, attr := st.curAttr } := by
      rw [show feed st [b2] = pstep st b2 from rfl]
      rw [pstep_ground st b2 hstg, groundStep_printable st b2 hb2,
        printChar_noWrap st b2 (by omega) hstaw]
    rw [hD, ← hstc]
    rw [cell_at_write st st.curRow st.curCol _ ⟨w1, w2, w3, w4, w5, w6, w7, w8, w9⟩ w5 w6]
  · have hD : feed st [b2] = writeCellAt st st.curRow st.curCol
        { ch := b2, attr := st.curAttr } := by
      rw [show feed st [b2] = pstep st b2 from rfl]
      rw [pstep_ground st b2 hstg, groundStep_printable st b2 hb2,
        printChar_noWrap st b2 (by omega) hstaw]
    rw [hD]
    rfl

theorem C4_witness :
    WF { initTerm 2 2 0 false with curCol := 1 } ∧
    (cell_at (feed (initTerm 2 2 0 true) (List.replicate 2 97 ++ [98])) 1 0).ch = 98 ∧
    ((feed (initTerm 2 2 0 true)
        (List.replicate 2 97 ++ [98])).grid.getD 0 (blankRow 0 0)).wrapped = true ∧
    (cell_at (feed { initTerm 2 2 0 false with curCol := 1 } [98])
        { initTerm 2 2 0 false with curCol := 1 }.curRow
        ({ initTerm 2 2 0 false with curCol := 1 }.cols - 1)).ch = 98 ∧
    cursor_position (feed { initTerm 2 2 0 false with curCol := 1 } [98]) =
      ({ initTerm 2 2 0 false with curCol := 1 }.curRow,
       { initTerm 2 2 0 false with curCol := 1 }.curCol) :=
  ⟨by unfold WF; decide,
   (C4_autowrap_wrap_and_overwrite 2 2 0 97 98 { initTerm 2 2 0 false with curCol := 1 }
     (by decide) (by decide) (by decide) (by decide)
     (by unfold WF; decide) rfl rfl (by decide)).1,
   (C4_autowrap_wrap_and_overwrite 2 2 0 97 98 { initTerm 2 2 0 false with curCol := 1 }
     (by decide) (by decide) (by decide) (by decide)
     (by unfold WF; decide) rfl rfl (by decide)).2.1,
   (C4_autowrap_wrap_and_overwrite 2 2 0 97 98 { initTerm 2 2 0 false with curCol := 1 }
     (by decide) (by decide) (by decide) (by decide)
     (by unfold WF; decide) rfl rfl (by decide)).2.2.2.1,
   (C4_autowrap_wrap_and_overwrite 2 2 0 97 98 { initTerm 2 2 0 false with curCol := 1 }
     (by decide) (by decide) (by decide) (by decide)
     (by unfold WF; decide) rfl rfl (by decide)).2.2.2.2⟩

theorem feed_lf_descend :
    ∀ (m : Nat) (st : Term), st.pstate = PState.ground → st.regBottom < st.rows →
      st.curRow + m ≤ st.regBottom →
      feed st (List.replicate m 10) = { st with curRow := st.curRow + m } := by
  intro m
  induction m with
  | zero =>
    intro st hg hrb hm
    rfl
  | succ m ih =>
    intro st hg hrb hm
    rw [List.replicate_succ, feed_cons]
    have h10 : pstep st 10 = lineFeed st := by
      rw [pstep_ground st 10 hg, groundStep_lf]
    rw [h10, lineFeed_move st (by omega) (by omega)]
    rw [ih { st with curRow := st.curRow + 1 } hg hrb
      (by show st.curRow + 1 + m ≤ st.regBottom; omega)]
    show { st with curRow := st.curRow + 1 + m } = { st with curRow := st.curRow + (m + 1) }
    rw [show st.curRow + 1 + m = st.curRow + (m + 1) from by omega]

theorem scrollRegionUp_full (st : Term) (ht : st.regTop = 0) (hbm : st.regBottom = st.rows - 1)
    (hlen : st.grid.length = st.rows) (h1 : 1 ≤ st.rows)
    (hroom : st.sb.rows.length < st.sb.maxRows) :
    scrollRegionUp st = { st with grid := st.grid.drop 1 ++ [blankRow st.cols st.curAttr], sb := { rows := st.sb.rows ++ st.grid.take 1, maxRows := st.sb.maxRows } } := by
  have hfull : fullRegion st = true := by
    unfold fullRegion
    simp [ht, hbm]
  have hgrid : scrolledGrid st = st.grid.drop 1 ++ [blankRow st.cols st.curAttr] := by
    unfold scrolledGrid
    rw [ht, hbm, show st.rows - 1 + 1 = st.rows from by omega, ← hlen]
    simp
  have hsb : scrolledSb st = { rows := st.sb.rows ++ st.grid.take 1, maxRows := st.sb.maxRows } := by
    unfold scrolledSb
    rw [if_pos hfull]
    rcases hgr : st.grid with _ | ⟨a, l⟩
    · rw [hgr] at hlen
      simp at hlen
      omega
    · simp only [List.head?_cons]
      show st.sb.push a = _
      unfold ScrollbackStore.push
      rw [if_neg (by omega), if_pos hroom]
      simp
  unfold scrollRegionUp
  rw [hgrid, hsb]

theorem feed_lf_scroll :
    ∀ (k : Nat) (st : Term), st.pstate = PState.ground →
      st.curRow = st.regBottom → st.regTop = 0 → st.regBottom = st.rows - 1 →
      1 ≤ st.rows → st.grid.length = st.rows →
      st.sb.rows.length + k ≤ st.sb.maxRows →
      feed st (List.replicate k 10) = { st with grid := (st.grid ++ List.replicate k (blankRow st.cols st.curAttr)).drop k, sb := { rows := st.sb.rows ++ (st.grid ++ List.replicate k (blankRow st.cols st.curAttr)).take k, maxRows := st.sb.maxRows } } := by
  intro k
  induction k with
  | zero =>
    intro st hg hb ht hbm h1 hlen hroom
    simp
    rfl
  | succ k ih =>
    intro st hg hb ht hbm h1 hlen hroom
    rw [List.replicate_succ, feed_cons]
    have h10 : pstep st 10 = lineFeed st := by
      rw [pstep_ground st 10 hg, groundStep_lf]
    rw [h10, lineFeed_scroll st hb, scrollRegionUp_full st ht hbm hlen h1 (by omega)]
    rw [ih { st with grid := st.grid.drop 1 ++ [blankRow st.cols st.curAttr], sb := { rows := st.sb.rows ++ st.grid.take 1, maxRows := st.sb.maxRows } } hg hb ht hbm h1
      (by show (st.grid.drop 1 ++ [blankRow st.cols st.curAttr]).length = st.rows
          simp only [List.length_append, List.length_drop, List.length_cons, List.length_nil]
          omega)
      (by show (st.sb.rows ++ st.grid.take 1).length + k ≤ st.sb.maxRows
          simp only [List.length_append, List.length_take]
          omega)]
    rcases hgr : st.grid with _ | ⟨a, l⟩
    · rw [hgr] at hlen
      simp at hlen
      omega
    · simp [List.replicate_succ, List.append_assoc, List.drop_succ_cons, List.take_succ_cons, List.drop_one, List.singleton_append, List.cons_append]

theorem C5_counterexample :
    (feed (initTerm 2 3 10 true) (List.replicate (2 + 1) 10)).sb.rows.length ≠ 1 := by
  decide

/-- C5 (amended): with the scrolling region at the full grid and the cursor
at the top, feeding `rows + k` line feeds (k ≥ 1) evicts exactly `k + 1`
rows into the ScrollbackStore — the first `rows − 1` line feeds only move
the cursor to the bottom, each of the remaining `k + 1` scrolls once —
evicting the grid's top rows oldest first; a line feed with the cursor not
at the bottom of the region only moves the cursor down one row; and a line
feed never changes the ScrollbackStore when the region is not the full
grid. -/
theorem C5_linefeed_eviction (st st2 st3 : Term) (k : Nat) (hk : 1 ≤ k)
    (h : WF st) (hg : st.pstate = PState.ground) (hr0 : st.curRow = 0)
    (ht : st.regTop = 0) (hbm : st.regBottom = st.rows - 1)
    (hsb0 : st.sb.rows = []) (hroom : k + 1 ≤ st.sb.maxRows)
    (hg2 : st2.pstate = PState.ground) (hnb2 : st2.curRow ≠ st2.regBottom)
    (hlt2 : st2.curRow + 1 < st2.rows)
    (hg3 : st3.pstate = PState.ground) (hnf3 : fullRegion st3 = false) :
    (feed st (List.replicate (st.rows + k) 10)).sb.rows
      = (st.grid ++ List.replicate (k + 1) (blankRow st.cols st.curAttr)).take (k + 1) ∧
    (feed st (List.replicate (st.rows + k) 10)).sb.rows.length = k + 1 ∧
    feed st2 [10] = { st2 with curRow := st2.curRow + 1 } ∧
    (feed st3 [10]).sb = st3.sb := by
  obtain ⟨h1, h2, h3, h4, h5, h6, h7, h8, h9⟩ := h
  have hsplit : List.replicate (st.rows + k) (10 : Nat)
      = List.replicate (st.rows - 1) 10 ++ List.replicate (k + 1) 10 := by
    rw [← List.replicate_add]
    congr 1
    omega
  have hdesc := feed_lf_descend (st.rows - 1) st hg (by omega) (by omega)
  have hscroll := feed_lf_scroll (k + 1) { st with curRow := st.curRow + (st.rows - 1) }
    hg (by show st.curRow + (st.rows - 1) = st.regBottom; omega) ht hbm h1 h3
    (by show st.sb.rows.length + (k + 1) ≤ st.sb.maxRows
        rw [hsb0]
        simpa using hroom)
  have hfeed : feed st (List.replicate (st.rows + k) 10)
      = { { st with curRow := st.curRow + (st.rows - 1) } with grid := (st.grid ++ List.replicate (k + 1) (blankRow st.cols st.curAttr)).drop (k + 1), sb := { rows := st.sb.rows ++ (st.grid ++ List.replicate (k + 1) (blankRow st.cols st.curAttr)).take (k + 1), maxRows := st.sb.maxRows } } := by
    rw [hsplit, feed_append, hdesc, hscroll]
  refine ⟨?_, ?_, ?_, ?_⟩
  · rw [hfeed]
    show st.sb.rows ++ (st.grid ++ List.replicate (k + 1)
        (blankRow st.cols st.curAttr)).take (k + 1)
      = (st.grid ++ List.replicate (k + 1) (blankRow st.cols st.curAttr)).take (k + 1)
    rw [hsb0]
    simp
  · rw [hfeed]
    show (st.sb.rows ++ (st.grid ++ List.replicate (k + 1)
        (blankRow st.cols st.curAttr)).take (k + 1)).length = k + 1
    rw [hsb0]
    simp only [List.nil_append, List.length_take, List.length_append, List.length_replicate]
    omega
  · rw [show feed st2 [10] = pstep st2 10 from rfl, pstep_ground st2 10 hg2, groundStep_lf,
      lineFeed_move st2 hnb2 hlt2]
  · rw [show feed st3 [10] = pstep st3 10 from rfl, pstep_ground st3 10 hg3, groundStep_lf]
    unfold lineFeed
    split_ifs
    · show scrolledSb st3 = st3.sb
      unfold scrolledSb
      rw [if_neg (by simp [hnf3])]
    · rfl
    · rfl

theorem C5_witness :
    WF (initTerm 2 3 10 true) ∧
    ((feed (initTerm 2 3 10 true) (List.replicate ((initTerm 2 3 10 true).rows + 1) 10)).sb.rows
       = ((initTerm 2 3 10 true).grid ++ List.replicate (1 + 1)
           (blankRow (initTerm 2 3 10 true).cols (initTerm 2 3 10 true).curAttr)).take (1 + 1) ∧
     (feed (initTerm 2 3 10 true)
        (List.replicate ((initTerm 2 3 10 true).rows + 1) 10)).sb.rows.length = 1 + 1 ∧
     feed (initTerm 3 3 0 true) [10]
       = { initTerm 3 3 0 true with curRow := (initTerm 3 3 0 true).curRow + 1 } ∧
     (feed { initTerm 3 3 5 true with regBottom := 1 } [10]).sb
       = { initTerm 3 3 5 true with regBottom := 1 }.sb) :=
  ⟨WF_initTerm 2 3 10 true,
   C5_linefeed_eviction (initTerm 2 3 10 true) (initTerm 3 3 0 true)
     { initTerm 3 3 5 true with regBottom := 1 } 1 (by decide)
     (WF_initTerm 2 3 10 true) rfl rfl rfl rfl rfl (by decide)
     rfl (by decide) (by decide) rfl (by decide)⟩

end Core


namespace Glue

/-- C8: `vte_spawn` records the spawned child's pid in the process-wide
global `child_pid`; on any of the registered signals (SIGHUP, SIGINT,
SIGTERM) the handler sends SIGHUP to that pid exactly when it is nonzero,
and then exits with the signal number. -/
theorem C8_signal_handler_global_pid (s : ProcState) (pid : Int) (sig : Nat)
    (hsig : sig ∈ registeredSignals) :
    ((signal_handler s sig).1 = some (s.child_pid, SIGHUP) ↔ s.child_pid ≠ 0) ∧
    ((signal_handler s sig).1 = none ↔ s.child_pid = 0) ∧
    (signal_handler s sig).2 = sig ∧
    (vte_spawn s pid).child_pid = pid := by
  refine ⟨?_, ?_, rfl, rfl⟩
  · unfold signal_handler
    split_ifs with h0 <;> simp [h0]
  · unfold signal_handler
    split_ifs with h0 <;> simp [h0] <;> omega

theorem C8_witness :
    (2 ∈ registeredSignals) ∧
    (((signal_handler { child_pid := 42 } 2).1 =
        some (({ child_pid := 42 } : ProcState).child_pid, SIGHUP) ↔
      ({ child_pid := 42 } : ProcState).child_pid ≠ 0) ∧
     ((signal_handler { child_pid := 42 } 2).1 = none ↔
      ({ child_pid := 42 } : ProcState).child_pid = 0) ∧
     (signal_handler { child_pid := 42 } 2).2 = 2 ∧
     (vte_spawn { child_pid := 42 } 7).child_pid = 7) :=
  ⟨by decide, C8_signal_handler_global_pid { child_pid := 42 } 7 2 (by decide)⟩

/-- C9: `key_press_cb` returns TRUE (consuming the event) exactly when
either all bits of the configured modifier mask are held and the uppercased
key value is one of the six bound action keys, or the mask is not fully
held and the raw key value is the fullscreen key; otherwise it returns
FALSE and the event is forwarded to the terminal widget. -/
theorem C9_key_press_dispatch (cfg : KeyConfig) (toUpper : Nat → Nat) (ev : KeyEvent) :
    key_press_cb cfg toUpper ev = true ↔
      ((ev.state &&& cfg.modifier = cfg.modifier ∧
        (toUpper ev.keyval = cfg.keyCopy ∨ toUpper ev.keyval = cfg.keyPaste ∨
         toUpper ev.keyval = cfg.keyOpen ∨ toUpper ev.keyval = cfg.keyFontEnlarge ∨
         toUpper ev.keyval = cfg.keyFontShrink ∨ toUpper ev.keyval = cfg.keyFontReset)) ∨
       (¬ ev.state &&& cfg.modifier = cfg.modifier ∧ ev.keyval = cfg.keyFullscreen)) := by
  unfold key_press_cb
  by_cases hm : ev.state &&& cfg.modifier = cfg.modifier
  · rw [if_pos (by simp [hm])]
    simp [hm, or_assoc]
  · rw [if_neg (by simp [hm])]
    simp [hm]

/-- C10: without the `keep` option, child exit terminates the process with
the child's exit status when it exited normally (`WIFEXITED`), and with
EXIT_FAILURE otherwise; with `keep` set the child-exited callback is never
connected, so the process does not exit. -/
theorem C10_child_exit_behavior (status : Nat) :
    (WIFEXITED status = true → on_child_exit false status = some (WEXITSTATUS status)) ∧
    (WIFEXITED status = false → on_child_exit false status = some EXIT_FAILURE) ∧
    on_child_exit true status = none ∧
    child_exited_connected false = true ∧ child_exited_connected true = false := by
  refine ⟨?_, ?_, rfl, rfl, rfl⟩
  · intro hx
    simp [on_child_exit, child_exited_connected, vte_exit_cb, hx]
  · intro hx
    simp [on_child_exit, child_exited_connected, vte_exit_cb, hx]

theorem C10_witness :
    WIFEXITED 768 = true ∧ on_child_exit false 768 = some (WEXITSTATUS 768) ∧
    WIFEXITED 9 = false ∧ on_child_exit false 9 = some EXIT_FAILURE ∧
    on_child_exit true 768 = none :=
  ⟨by decide, (C10_child_exit_behavior 768).1 (by decide), by decide,
   (C10_child_exit_behavior 9).2.1 (by decide), (C10_child_exit_behavior 768).2.2.1⟩

end Glue

end TinyTerm
